import Mathlib

/-!
Verification of the ZOF root-finding engine (ZOF_CLI.py and app.py).

The six iterative methods are embedded shallowly:

* Python float values are modelled exactly by `Fl := Option ℚ`: `some q` is an
  ordinary (finite) float value, `none` is NaN.  Arithmetic on `Fl` propagates
  NaN; comparisons involving NaN are `false`, and `NaN == NaN` is `false`,
  exactly as in Python.  Division by an exact zero raises, as plain Python
  float division does.
* An evaluator (the opaque callable supplied by the expression parser) is a
  function `Ev := Fl → EvalRes`: on a given input it returns a value, returns
  NaN, or raises an exception.  Being a Lean function, repeated application at
  the same point gives the same result, which models the assumption (spec
  section 5) that the evaluator is a pure mathematical function.
* A raised Python exception is a `PyExc`: its class (`ValueError`,
  `ZeroDivisionError`, or other) together with its message string.
* Every method loop `for k in range(1, maxit+1)` is factored into a step
  function (one loop body execution, producing one iteration record and either
  stopping, continuing, or raising) and the shared runner `runLoop`, which
  also performs the post-loop return of the Python code via `exh`.
  `runLoop` is called with fuel `maxit`; the embedding is faithful for
  `maxit ≥ 1`, the domain demanded by the spec (`max_iterations > 0`).  (For
  `maxit = 0` the Python code of bisection, regula falsi and secant would hit
  a NameError on an unbound local; the claims all assume `maxit ≥ 1`.)
* A printed row of the CLI and an appended tuple of the web variant are both
  modelled as an `IterationRecord` holding index, estimate, function value and
  error metric; the presentation-only context string is not modelled.
-/

/-- The Python exception class of a raised error. -/
inductive ExcClass where
  | valueError
  | zeroDivisionError
  | otherError
deriving DecidableEq

/-- A raised Python exception: its class and its message. -/
structure PyExc where
  cls : ExcClass
  msg : String
deriving DecidableEq

/-- A Python float value: `some q` is a finite value, `none` is NaN. -/
abbrev Fl := Option ℚ

/-- Addition, NaN propagating. -/
def Fl.add : Fl → Fl → Fl
  | some a, some b => some (a + b)
  | _, _ => none

/-- Subtraction, NaN propagating. -/
def Fl.sub : Fl → Fl → Fl
  | some a, some b => some (a - b)
  | _, _ => none

/-- Multiplication, NaN propagating. -/
def Fl.mul : Fl → Fl → Fl
  | some a, some b => some (a * b)
  | _, _ => none

/-- Absolute value, NaN propagating. -/
def Fl.fabs : Fl → Fl
  | some a => some |a|
  | none => none

/-- Python `<` on floats: any comparison with NaN is false. -/
def Fl.blt : Fl → Fl → Bool
  | some a, some b => decide (a < b)
  | _, _ => false

/-- Python `>` on floats: any comparison with NaN is false. -/
def Fl.bgt (x y : Fl) : Bool := Fl.blt y x

/-- Python `==` on floats: `NaN == NaN` is false. -/
def Fl.beq : Fl → Fl → Bool
  | some a, some b => decide (a = b)
  | _, _ => false

/-- `np.isnan`. -/
def Fl.isnan : Fl → Bool
  | none => true
  | some _ => false

/-- Python float division: raises ZeroDivisionError on an exact zero
divisor (plain float semantics), NaN propagating otherwise. -/
def Fl.div (x y : Fl) : Except PyExc Fl :=
  match y with
  | some b =>
      if b = 0 then .error ⟨.zeroDivisionError, "float division by zero"⟩
      else match x with
        | some a => .ok (some (a / b))
        | none => .ok none
  | none => .ok none

/-- Result of applying an evaluator at a point: a value, NaN, or a raised
exception. -/
inductive EvalRes where
  | ok (q : ℚ)
  | nan
  | exn (e : PyExc)
deriving DecidableEq

/-- An opaque evaluator (spec section 3): a function from a float to a float,
possibly NaN or a raised exception. -/
abbrev Ev := Fl → EvalRes

/-- Calling an evaluator inside method code: a raised exception propagates,
NaN becomes the NaN value. -/
def Ev.call (f : Ev) (z : Fl) : Except PyExc Fl :=
  match f z with
  | .ok q => .ok (some q)
  | .nan => .ok none
  | .exn e => .error e

/-- The evaluator obtained from a total rational function: never raises, and
returns NaN exactly on NaN input (a pure mathematical function). -/
def pureEv (φ : ℚ → ℚ) : Ev := fun z =>
  match z with
  | some q => .ok (φ q)
  | none => .nan

/-- One per loop step (spec section 3): 1-based index, estimate, function
value at the estimate, and the method specific error metric. -/
structure IterationRecord where
  idx : ℕ
  est : Fl
  fval : Fl
  err : Fl
deriving DecidableEq

/-- The value returned by a run that does not raise (spec section 3):
the trace of records, root estimate, function value there, iterations used. -/
structure RunResult where
  trace : List IterationRecord
  root : Fl
  fval : Fl
  iters : ℕ
deriving DecidableEq

/-- Outcome of one loop body: return from the function (converged) with the
given root and function value, or continue with the updated state. -/
inductive StepNext (S : Type) where
  | stop (root fval : Fl)
  | go (s : S)

instance {ε α : Type} [DecidableEq ε] [DecidableEq α] : DecidableEq (Except ε α) := fun a b =>
  match a, b with
  | .error x, .error y =>
      if h : x = y then .isTrue (by rw [h]) else .isFalse (by intro hh; cases hh; exact h rfl)
  | .error _, .ok _ => .isFalse (by intro hh; cases hh)
  | .ok _, .error _ => .isFalse (by intro hh; cases hh)
  | .ok x, .ok y =>
      if h : x = y then .isTrue (by rw [h]) else .isFalse (by intro hh; cases hh; exact h rfl)

/-- The shared loop shape `for k in range(1, maxit+1)` of all six methods:
`step` is one loop body (appending its record to the trace), `exh` is the
post-loop return of the Python code (which may itself evaluate the function
again).  Called with `fuel = maxit` and `k = 1`. -/
def runLoop {S : Type} (step : ℕ → S → Except PyExc (IterationRecord × StepNext S))
    (exh : S → Except PyExc (Fl × Fl)) (maxit : ℕ) :
    ℕ → ℕ → S → List IterationRecord → Except PyExc RunResult
  | 0, _, s, tr =>
      match exh s with
      | .error e => .error e
      | .ok (r, v) => .ok ⟨tr, r, v, maxit⟩
  | fuel + 1, k, s, tr =>
      match step k s with
      | .error e => .error e
      | .ok (r1, .stop root fval) => .ok ⟨tr ++ [r1], root, fval, k⟩
      | .ok (r1, .go s1) => runLoop step exh maxit fuel (k + 1) s1 (tr ++ [r1])

/-! ## Bisection (ZOF_CLI.py lines 29-50, app.py lines 14-32)

The loop bodies of the two files are line for line identical (the CLI prints
the record, the web variant appends it), so they share one step function.
The entries differ: only the CLI checks the endpoints for NaN. -/

/-- Loop state of bisection: bracket `a, b` with cached `fa, fb`, and the
last computed midpoint `c` with `fc` (used by the post-loop return). -/
structure BState where
  a : ℚ
  b : ℚ
  fa : Fl
  fb : Fl
  c : ℚ
  fc : Fl

/-- One bisection loop body (ZOF_CLI.py lines 38-49 = app.py lines 20-31):
midpoint, record, early return on an exact zero or a small half-width, else
the bracket update keeping the endpoint pair whose product test succeeds. -/
def bisectionStep (f : Ev) (tol : ℚ) (k : ℕ) (s : BState) :
    Except PyExc (IterationRecord × StepNext BState) :=
  let c := (s.a + s.b) / 2
  match Ev.call f (some c) with
  | .error e => .error e
  | .ok fc =>
      let err : Fl := some (|s.b - s.a| / 2)
      let r1 : IterationRecord := ⟨k, some c, fc, err⟩
      if fc.fabs.beq (some 0) || err.blt (some tol) then .ok (r1, .stop (some c) fc)
      else if (s.fa.mul fc).blt (some 0) then .ok (r1, .go ⟨s.a, c, s.fa, fc, c, fc⟩)
      else .ok (r1, .go ⟨c, s.b, fc, s.fb, c, fc⟩)

/-- Post-loop return of bisection (`return c, fc, maxit`). -/
def bisectionExh (s : BState) : Except PyExc (Fl × Fl) := .ok (some s.c, s.fc)

/-- CLI bisection (ZOF_CLI.py lines 29-50): evaluates the endpoints, raises
ValueError on a NaN endpoint, raises ValueError on a positive product, else
runs the loop.  The initial `fc` stands for the Python local that is unbound
until the first iteration (only reachable for `maxit = 0`). -/
def bisection (f : Ev) (a b : ℚ) (tol : ℚ) (maxit : ℕ) : Except PyExc RunResult :=
  match Ev.call f (some a) with
  | .error e => .error e
  | .ok fa =>
  match Ev.call f (some b) with
  | .error e => .error e
  | .ok fb =>
  if fa.isnan || fb.isnan then
    .error ⟨.valueError, "Function returned NaN on interval endpoints."⟩
  else if (fa.mul fb).bgt (some 0) then
    .error ⟨.valueError, "f(a) and f(b) must have opposite signs for bisection."⟩
  else runLoop (bisectionStep f tol) bisectionExh maxit maxit 1 ⟨a, b, fa, fb, a, none⟩ []

/-- Web bisection (app.py lines 14-32): same as the CLI except that there is
no NaN check on the endpoints. -/
def bisection_list (f : Ev) (a b : ℚ) (tol : ℚ) (maxit : ℕ) : Except PyExc RunResult :=
  match Ev.call f (some a) with
  | .error e => .error e
  | .ok fa =>
  match Ev.call f (some b) with
  | .error e => .error e
  | .ok fb =>
  if (fa.mul fb).bgt (some 0) then
    .error ⟨.valueError, "f(a) and f(b) must have opposite signs for bisection."⟩
  else runLoop (bisectionStep f tol) bisectionExh maxit maxit 1 ⟨a, b, fa, fb, a, none⟩ []

/-! ## Regula Falsi (ZOF_CLI.py lines 52-71, app.py lines 34-52)

The CLI and web code are line for line identical (no NaN check in either),
so entry and loop are shared; the web entry is a literal copy. -/

/-- Loop state of regula falsi.  Unlike bisection the interpolated point is a
float expression of function values, so the endpoints can become NaN. -/
structure RFState where
  a : Fl
  b : Fl
  fa : Fl
  fb : Fl
  c : Fl
  fc : Fl

/-- One regula falsi loop body (ZOF_CLI.py lines 59-70 = app.py lines 40-51):
linear interpolation (a plain float division, raising on an exact zero
denominator), record with residual error metric, early return on a small
residual, same bracket update rule as bisection. -/
def regulaFalsiStep (f : Ev) (tol : ℚ) (k : ℕ) (s : RFState) :
    Except PyExc (IterationRecord × StepNext RFState) :=
  match Fl.div ((s.a.mul s.fb).sub (s.b.mul s.fa)) (s.fb.sub s.fa) with
  | .error e => .error e
  | .ok c =>
  match Ev.call f c with
  | .error e => .error e
  | .ok fc =>
      let err := fc.fabs
      let r1 : IterationRecord := ⟨k, c, fc, err⟩
      if fc.fabs.blt (some tol) then .ok (r1, .stop c fc)
      else if (s.fa.mul fc).blt (some 0) then .ok (r1, .go ⟨s.a, c, s.fa, fc, c, fc⟩)
      else .ok (r1, .go ⟨c, s.b, fc, s.fb, c, fc⟩)

/-- Post-loop return of regula falsi (`return c, fc, maxit`). -/
def regulaFalsiExh (s : RFState) : Except PyExc (Fl × Fl) := .ok (s.c, s.fc)

/-- CLI regula falsi (ZOF_CLI.py lines 52-71): bracket product check (no NaN
check), then the loop. -/
def regula_falsi (f : Ev) (a b : ℚ) (tol : ℚ) (maxit : ℕ) : Except PyExc RunResult :=
  match Ev.call f (some a) with
  | .error e => .error e
  | .ok fa =>
  match Ev.call f (some b) with
  | .error e => .error e
  | .ok fb =>
  if (fa.mul fb).bgt (some 0) then
    .error ⟨.valueError, "f(a) and f(b) must have opposite signs for Regula Falsi."⟩
  else runLoop (regulaFalsiStep f tol) regulaFalsiExh maxit maxit 1
    ⟨some a, some b, fa, fb, some a, none⟩ []

/-- Web regula falsi (app.py lines 34-52): literal copy of the CLI code. -/
def regula_falsi_list (f : Ev) (a b : ℚ) (tol : ℚ) (maxit : ℕ) : Except PyExc RunResult :=
  match Ev.call f (some a) with
  | .error e => .error e
  | .ok fa =>
  match Ev.call f (some b) with
  | .error e => .error e
  | .ok fb =>
  if (fa.mul fb).bgt (some 0) then
    .error ⟨.valueError, "f(a) and f(b) must have opposite signs for Regula Falsi."⟩
  else runLoop (regulaFalsiStep f tol) regulaFalsiExh maxit maxit 1
    ⟨some a, some b, fa, fb, some a, none⟩ []

/-! ## Secant (ZOF_CLI.py lines 73-87, app.py lines 54-68)

CLI and web code are line for line identical; loop and entry are shared. -/

/-- Loop state of secant: the sliding window and the last computed point
(used by the post-loop return). -/
structure SecState where
  x0 : Fl
  f0 : Fl
  x1 : Fl
  f1 : Fl
  x2 : Fl
  fx2 : Fl

/-- One secant loop body (ZOF_CLI.py lines 77-86 = app.py lines 58-67):
raises ZeroDivisionError when the two window function values are equal, else
the secant update, record, dual convergence test, window slide. -/
def secantStep (f : Ev) (tol : ℚ) (k : ℕ) (s : SecState) :
    Except PyExc (IterationRecord × StepNext SecState) :=
  if (s.f1.sub s.f0).beq (some 0) then
    .error ⟨.zeroDivisionError, "Division by zero in Secant method."⟩
  else
  match Fl.div (s.f1.mul (s.x1.sub s.x0)) (s.f1.sub s.f0) with
  | .error e => .error e
  | .ok t =>
  let x2 := s.x1.sub t
  let err := (x2.sub s.x1).fabs
  match Ev.call f x2 with
  | .error e => .error e
  | .ok fx2 =>
      let r1 : IterationRecord := ⟨k, x2, fx2, err⟩
      if err.blt (some tol) || fx2.fabs.blt (some tol) then .ok (r1, .stop x2 fx2)
      else .ok (r1, .go ⟨s.x1, s.f1, x2, fx2, x2, fx2⟩)

/-- Post-loop return of secant (`return x2, fx2, maxit`). -/
def secantExh (s : SecState) : Except PyExc (Fl × Fl) := .ok (s.x2, s.fx2)

/-- CLI secant (ZOF_CLI.py lines 73-87): evaluates the seeds, then the loop.
No sign precondition. -/
def secant (f : Ev) (x0 x1 : ℚ) (tol : ℚ) (maxit : ℕ) : Except PyExc RunResult :=
  match Ev.call f (some x0) with
  | .error e => .error e
  | .ok f0 =>
  match Ev.call f (some x1) with
  | .error e => .error e
  | .ok f1 =>
  runLoop (secantStep f tol) secantExh maxit maxit 1
    ⟨some x0, f0, some x1, f1, none, none⟩ []

/-- Web secant (app.py lines 54-68): literal copy of the CLI code. -/
def secant_list (f : Ev) (x0 x1 : ℚ) (tol : ℚ) (maxit : ℕ) : Except PyExc RunResult :=
  match Ev.call f (some x0) with
  | .error e => .error e
  | .ok f0 =>
  match Ev.call f (some x1) with
  | .error e => .error e
  | .ok f1 =>
  runLoop (secantStep f tol) secantExh maxit maxit 1
    ⟨some x0, f0, some x1, f1, none, none⟩ []

/-! ## Newton-Raphson (ZOF_CLI.py lines 89-103, app.py lines 70-84)

CLI and web code are identical except for the message of the zero-derivative
error, so the two step functions are transcribed separately. -/

/-- Loop state of Newton-Raphson: the current iterate. -/
structure NState where
  xi : Fl

/-- One CLI Newton loop body (ZOF_CLI.py lines 93-102): evaluate f and the
derivative, raise on an exactly zero derivative, Newton update, record
(evaluating f at the new point), dual convergence test. -/
def newtonStep (f df : Ev) (tol : ℚ) (k : ℕ) (s : NState) :
    Except PyExc (IterationRecord × StepNext NState) :=
  match Ev.call f s.xi with
  | .error e => .error e
  | .ok fxi =>
  match Ev.call df s.xi with
  | .error e => .error e
  | .ok dfxi =>
  if dfxi.beq (some 0) then
    .error ⟨.zeroDivisionError, "Zero derivative encountered in Newton-Raphson."⟩
  else
  match Fl.div fxi dfxi with
  | .error e => .error e
  | .ok t =>
  let xn := s.xi.sub t
  let err := (xn.sub s.xi).fabs
  match Ev.call f xn with
  | .error e => .error e
  | .ok fxn =>
      let r1 : IterationRecord := ⟨k, xn, fxn, err⟩
      if err.blt (some tol) || fxn.fabs.blt (some tol) then .ok (r1, .stop xn fxn)
      else .ok (r1, .go ⟨xn⟩)

/-- One web Newton loop body (app.py lines 74-83): identical to the CLI loop
body except for the error message. -/
def newtonListStep (f df : Ev) (tol : ℚ) (k : ℕ) (s : NState) :
    Except PyExc (IterationRecord × StepNext NState) :=
  match Ev.call f s.xi with
  | .error e => .error e
  | .ok fxi =>
  match Ev.call df s.xi with
  | .error e => .error e
  | .ok dfxi =>
  if dfxi.beq (some 0) then
    .error ⟨.zeroDivisionError, "Zero derivative in Newton."⟩
  else
  match Fl.div fxi dfxi with
  | .error e => .error e
  | .ok t =>
  let xn := s.xi.sub t
  let err := (xn.sub s.xi).fabs
  match Ev.call f xn with
  | .error e => .error e
  | .ok fxn =>
      let r1 : IterationRecord := ⟨k, xn, fxn, err⟩
      if err.blt (some tol) || fxn.fabs.blt (some tol) then .ok (r1, .stop xn fxn)
      else .ok (r1, .go ⟨xn⟩)

/-- Post-loop return of Newton (`return xi, f(xi), maxit`): re-evaluates f. -/
def newtonExh (f : Ev) (s : NState) : Except PyExc (Fl × Fl) :=
  match Ev.call f s.xi with
  | .error e => .error e
  | .ok v => .ok (s.xi, v)

/-- CLI Newton-Raphson (ZOF_CLI.py lines 89-103). -/
def newton_raphson (f df : Ev) (x0 tol : ℚ) (maxit : ℕ) : Except PyExc RunResult :=
  runLoop (newtonStep f df tol) (newtonExh f) maxit maxit 1 ⟨some x0⟩ []

/-- Web Newton (app.py lines 70-84). -/
def newton_list (f df : Ev) (x0 tol : ℚ) (maxit : ℕ) : Except PyExc RunResult :=
  runLoop (newtonListStep f df tol) (newtonExh f) maxit maxit 1 ⟨some x0⟩ []

/-! ## Fixed Point (ZOF_CLI.py lines 105-119, app.py lines 86-96)

The loops differ: the CLI wraps the diagnostic evaluation of g at the next
point in try/except (recording NaN on an exception), the web variant calls
it unprotected.  The post-loop return is the same in both. -/

/-- Loop state of fixed point iteration: the current iterate. -/
structure FPState where
  xi : Fl

/-- One CLI fixed point loop body (ZOF_CLI.py lines 109-118): the primary
evaluation x_next = g(xi) propagates any exception; the diagnostic value
g(x_next) is computed under try/except and becomes NaN if g raises. -/
def fixedPointStep (g : Ev) (tol : ℚ) (k : ℕ) (s : FPState) :
    Except PyExc (IterationRecord × StepNext FPState) :=
  match Ev.call g s.xi with
  | .error e => .error e
  | .ok xn =>
      let err := (xn.sub s.xi).fabs
      let gx : Fl :=
        match g xn with
        | .ok q => some q
        | .nan => none
        | .exn _ => none
      let r1 : IterationRecord := ⟨k, xn, gx, err⟩
      if err.blt (some tol) then .ok (r1, .stop xn gx)
      else .ok (r1, .go ⟨xn⟩)

/-- One web fixed point loop body (app.py lines 90-95): the diagnostic
evaluation g(x_next) is NOT protected (`callable(g)` is always true for the
parsed function), so an exception there propagates; on convergence the code
evaluates g(x_next) once more for the returned function value. -/
def fixedPointListStep (g : Ev) (tol : ℚ) (k : ℕ) (s : FPState) :
    Except PyExc (IterationRecord × StepNext FPState) :=
  match Ev.call g s.xi with
  | .error e => .error e
  | .ok xn =>
      let err := (xn.sub s.xi).fabs
      match Ev.call g xn with
      | .error e => .error e
      | .ok gx =>
          let r1 : IterationRecord := ⟨k, xn, gx, err⟩
          if err.blt (some tol) then
            match Ev.call g xn with
            | .error e => .error e
            | .ok v => .ok (r1, .stop xn v)
          else .ok (r1, .go ⟨xn⟩)

/-- Post-loop return of fixed point (`return xi, g(xi), maxit`):
re-evaluates g, unprotected in both variants. -/
def fixedPointExh (g : Ev) (s : FPState) : Except PyExc (Fl × Fl) :=
  match Ev.call g s.xi with
  | .error e => .error e
  | .ok v => .ok (s.xi, v)

/-- CLI fixed point iteration (ZOF_CLI.py lines 105-119). -/
def fixed_point (g : Ev) (x0 tol : ℚ) (maxit : ℕ) : Except PyExc RunResult :=
  runLoop (fixedPointStep g tol) (fixedPointExh g) maxit maxit 1 ⟨some x0⟩ []

/-- Web fixed point iteration (app.py lines 86-96). -/
def fixed_point_list (g : Ev) (x0 tol : ℚ) (maxit : ℕ) : Except PyExc RunResult :=
  runLoop (fixedPointListStep g tol) (fixedPointExh g) maxit maxit 1 ⟨some x0⟩ []

/-! ## Modified Secant (ZOF_CLI.py lines 121-135, app.py lines 98-112)

CLI and web code are line for line identical; loop and entry are shared.
Note that the perturbation is recomputed inside the loop but only from the
parameters x0 and delta, which never change during the run. -/

/-- Loop state of modified secant: the current iterate. -/
structure MSState where
  xi : Fl

/-- One modified secant loop body (ZOF_CLI.py lines 125-134 = app.py lines
102-111): perturbation from the seed, finite difference denominator (raising
ZeroDivisionError when it is exactly zero), update, record, dual test. -/
def modSecantStep (f : Ev) (x0 delta : ℚ) (tol : ℚ) (k : ℕ) (s : MSState) :
    Except PyExc (IterationRecord × StepNext MSState) :=
  let perturb : ℚ := if x0 ≠ 0 then x0 * delta else delta
  match Ev.call f (s.xi.add (some perturb)) with
  | .error e => .error e
  | .ok fxp =>
  match Ev.call f s.xi with
  | .error e => .error e
  | .ok fxi =>
  let denom := fxp.sub fxi
  if denom.beq (some 0) then
    .error ⟨.zeroDivisionError, "Denominator zero in Modified Secant."⟩
  else
  match Fl.div (fxi.mul (some perturb)) denom with
  | .error e => .error e
  | .ok t =>
  let xn := s.xi.sub t
  let err := (xn.sub s.xi).fabs
  match Ev.call f xn with
  | .error e => .error e
  | .ok fxn =>
      let r1 : IterationRecord := ⟨k, xn, fxn, err⟩
      if err.blt (some tol) || fxn.fabs.blt (some tol) then .ok (r1, .stop xn fxn)
      else .ok (r1, .go ⟨xn⟩)

/-- Post-loop return of modified secant (`return xi, f(xi), maxit`):
re-evaluates f. -/
def modSecantExh (f : Ev) (s : MSState) : Except PyExc (Fl × Fl) :=
  match Ev.call f s.xi with
  | .error e => .error e
  | .ok v => .ok (s.xi, v)

/-- CLI modified secant (ZOF_CLI.py lines 121-135). -/
def modified_secant (f : Ev) (x0 delta tol : ℚ) (maxit : ℕ) : Except PyExc RunResult :=
  runLoop (modSecantStep f x0 delta tol) (modSecantExh f) maxit maxit 1 ⟨some x0⟩ []

/-- Web modified secant (app.py lines 98-112): literal copy of the CLI. -/
def modified_secant_list (f : Ev) (x0 delta tol : ℚ) (maxit : ℕ) : Except PyExc RunResult :=
  runLoop (modSecantStep f x0 delta tol) (modSecantExh f) maxit maxit 1 ⟨some x0⟩ []

/-- A variant of the modified secant loop body that follows the wording of
the spec (section 4, ModifiedSecant): the perturbation is a single constant
computed once from the seed and passed in, never recomputed.  Used to state
that the code agrees with this reading. -/
def modSecantPStep (f : Ev) (perturb : ℚ) (tol : ℚ) (k : ℕ) (s : MSState) :
    Except PyExc (IterationRecord × StepNext MSState) :=
  match Ev.call f (s.xi.add (some perturb)) with
  | .error e => .error e
  | .ok fxp =>
  match Ev.call f s.xi with
  | .error e => .error e
  | .ok fxi =>
  let denom := fxp.sub fxi
  if denom.beq (some 0) then
    .error ⟨.zeroDivisionError, "Denominator zero in Modified Secant."⟩
  else
  match Fl.div (fxi.mul (some perturb)) denom with
  | .error e => .error e
  | .ok t =>
  let xn := s.xi.sub t
  let err := (xn.sub s.xi).fabs
  match Ev.call f xn with
  | .error e => .error e
  | .ok fxn =>
      let r1 : IterationRecord := ⟨k, xn, fxn, err⟩
      if err.blt (some tol) || fxn.fabs.blt (some tol) then .ok (r1, .stop xn fxn)
      else .ok (r1, .go ⟨xn⟩)

/-- Modified secant with the perturbation precomputed once from the seed
(the reading of the spec). -/
def modified_secant_constp (f : Ev) (x0 delta tol : ℚ) (maxit : ℕ) : Except PyExc RunResult :=
  runLoop (modSecantPStep f (if x0 ≠ 0 then x0 * delta else delta) tol) (modSecantExh f)
    maxit maxit 1 ⟨some x0⟩ []

/-! ## Convergence predicates

Each convergence test of the loop bodies is a function of the current
iteration record and the tolerance alone; these predicates restate the exact
tests of the code on records. -/

/-- Bisection convergence test: exact zero function value or half-width
below tolerance. -/
def convBisection (tol : ℚ) (r : IterationRecord) : Bool :=
  r.fval.fabs.beq (some 0) || r.err.blt (some tol)

/-- Regula falsi convergence test: residual below tolerance. -/
def convRegulaFalsi (tol : ℚ) (r : IterationRecord) : Bool :=
  r.fval.fabs.blt (some tol)

/-- Secant, Newton and modified secant convergence test: step size or
residual below tolerance. -/
def convDual (tol : ℚ) (r : IterationRecord) : Bool :=
  r.err.blt (some tol) || r.fval.fabs.blt (some tol)

/-- Fixed point convergence test: step size below tolerance. -/
def convFixedPoint (tol : ℚ) (r : IterationRecord) : Bool :=
  r.err.blt (some tol)

/-! ## Generic lemmas about the shared loop runner -/

theorem runLoop_ok_iters_le {S : Type} (step : ℕ → S → Except PyExc (IterationRecord × StepNext S))
    (exh : S → Except PyExc (Fl × Fl)) (maxit : ℕ) :
    ∀ fuel k s tr out, k + fuel = maxit + 1 →
      runLoop step exh maxit fuel k s tr = .ok out → out.iters ≤ maxit := by
  intro fuel
  induction fuel with
  | zero =>
    intro k s tr out hk h
    simp only [runLoop] at h
    split at h
    · cases h
    · cases h; exact Nat.le_refl _
  | succ fuel ih =>
    intro k s tr out hk h
    simp only [runLoop] at h
    split at h
    · cases h
    · cases h; show k ≤ maxit; omega
    · exact ih (k + 1) _ _ out (by omega) h

theorem runLoop_ok_one_le_iters {S : Type}
    (step : ℕ → S → Except PyExc (IterationRecord × StepNext S))
    (exh : S → Except PyExc (Fl × Fl)) (maxit : ℕ) (hm : 1 ≤ maxit) :
    ∀ fuel k s tr out, 1 ≤ k →
      runLoop step exh maxit fuel k s tr = .ok out → 1 ≤ out.iters := by
  intro fuel
  induction fuel with
  | zero =>
    intro k s tr out hk h
    simp only [runLoop] at h
    split at h
    · cases h
    · cases h; exact hm
  | succ fuel ih =>
    intro k s tr out hk h
    simp only [runLoop] at h
    split at h
    · cases h
    · cases h; exact hk
    · exact ih (k + 1) _ _ out (by omega) h

theorem runLoop_ok_trace_extends {S : Type}
    (step : ℕ → S → Except PyExc (IterationRecord × StepNext S))
    (exh : S → Except PyExc (Fl × Fl)) (maxit : ℕ) :
    ∀ fuel k s tr out, runLoop step exh maxit fuel k s tr = .ok out →
      ∃ Δ, out.trace = tr ++ Δ := by
  intro fuel
  induction fuel with
  | zero =>
    intro k s tr out h
    simp only [runLoop] at h
    split at h
    · cases h
    · cases h; exact ⟨[], (List.append_nil tr).symm⟩
  | succ fuel ih =>
    intro k s tr out h
    simp only [runLoop] at h
    split at h
    · cases h
    · cases h; exact ⟨_, rfl⟩
    · obtain ⟨Δ, hΔ⟩ := ih (k + 1) _ _ out h
      exact ⟨_, by rw [hΔ, List.append_assoc]⟩

theorem runLoop_ok_trace_ne_nil {S : Type}
    (step : ℕ → S → Except PyExc (IterationRecord × StepNext S))
    (exh : S → Except PyExc (Fl × Fl)) (maxit : ℕ) :
    ∀ fuel k s out, 1 ≤ fuel →
      runLoop step exh maxit fuel k s [] = .ok out → out.trace ≠ [] := by
  intro fuel
  cases fuel with
  | zero => intro k s out hf; omega
  | succ fuel =>
    intro k s out _ h
    simp only [runLoop] at h
    split at h
    · cases h
    · cases h; simp
    · obtain ⟨Δ, hΔ⟩ := runLoop_ok_trace_extends step exh maxit fuel (k + 1) _ _ out h
      simp [hΔ]

theorem map_idx_concat (tr : List IterationRecord) (r : IterationRecord)
    (hmap : tr.map IterationRecord.idx = List.range' 1 tr.length)
    (hidx : r.idx = tr.length + 1) :
    (tr ++ [r]).map IterationRecord.idx = List.range' 1 (tr ++ [r]).length := by
  have h1 : (tr ++ [r]).length = tr.length + 1 := by simp
  rw [h1, List.range'_concat, List.map_append, hmap]
  congr 1
  rw [List.map_cons, List.map_nil, hidx]
  congr 1
  omega

theorem runLoop_ok_trace_spec {S : Type}
    (step : ℕ → S → Except PyExc (IterationRecord × StepNext S))
    (exh : S → Except PyExc (Fl × Fl)) (maxit : ℕ)
    (Hidx : ∀ k s r n, step k s = .ok (r, n) → r.idx = k)
    (Hstop : ∀ k s r root fval, step k s = .ok (r, .stop root fval) →
      root = r.est ∧ fval = r.fval)
    (Hgo : ∀ k s r s1 root fval, step k s = .ok (r, .go s1) →
      exh s1 = .ok (root, fval) → root = r.est ∧ fval = r.fval) :
    ∀ fuel k s tr out,
      k + fuel = maxit + 1 → 1 ≤ maxit →
      tr.map IterationRecord.idx = List.range' 1 tr.length →
      k = tr.length + 1 →
      (fuel = 0 → ∀ root fval, exh s = .ok (root, fval) →
        ∃ rl, tr.getLast? = some rl ∧ root = rl.est ∧ fval = rl.fval) →
      runLoop step exh maxit fuel k s tr = .ok out →
      out.trace ≠ [] ∧
      out.trace.map IterationRecord.idx = List.range' 1 out.trace.length ∧
      ∃ rl, out.trace.getLast? = some rl ∧ out.root = rl.est ∧ out.fval = rl.fval ∧
        out.iters = rl.idx := by
  intro fuel
  induction fuel with
  | zero =>
    intro k s tr out hk hm hmap hlen hlink h
    simp only [runLoop] at h
    split at h
    · cases h
    · rename_i r v hx
      cases h
      obtain ⟨rl, hlast, hest, hfval⟩ := hlink rfl r v hx
      have htr : tr ≠ [] := by
        intro hnil
        rw [hnil] at hlast
        cases hlast
      refine ⟨htr, hmap, rl, hlast, hest, hfval, ?_⟩
      -- the last index of tr equals its length, which is maxit
      have h1 : (tr.map IterationRecord.idx).getLast? = some rl.idx := by
        rw [List.getLast?_map, hlast]
        rfl
      have hlen' : tr.length = maxit := by omega
      rw [hmap, hlen'] at h1
      have h2 : (List.range' 1 maxit).getLast? = some maxit := by
        cases maxit with
        | zero => omega
        | succ m =>
          rw [List.range'_concat, List.getLast?_concat]
          congr 1
          omega
      rw [h2] at h1
      cases h1
      rfl
  | succ fuel ih =>
    intro k s tr out hk hm hmap hlen hlink h
    simp only [runLoop] at h
    split at h
    · cases h
    · rename_i r1 root fval hstep
      cases h
      have hidx : r1.idx = k := Hidx _ _ _ _ hstep
      obtain ⟨hest, hfval⟩ := Hstop _ _ _ _ _ hstep
      refine ⟨by simp, ?_, r1, List.getLast?_concat _, hest, hfval, hidx.symm⟩
      exact map_idx_concat tr r1 hmap (by omega)
    · rename_i r1 s1 hstep
      have hidx : r1.idx = k := Hidx _ _ _ _ hstep
      refine ih (k + 1) s1 (tr ++ [r1]) out (by omega) hm ?_ ?_ ?_ h
      · exact map_idx_concat tr r1 hmap (by omega)
      · simp [hlen]
      · intro _ root fval hx
        exact ⟨r1, List.getLast?_concat _, Hgo _ _ _ _ _ _ hstep hx⟩

theorem runLoop_ok_noconv {S : Type}
    (step : ℕ → S → Except PyExc (IterationRecord × StepNext S))
    (exh : S → Except PyExc (Fl × Fl)) (maxit : ℕ) (conv : IterationRecord → Bool)
    (Hconv : ∀ k s r n, step k s = .ok (r, n) →
      ((∃ root fval, n = .stop root fval) ↔ conv r = true)) :
    ∀ fuel k s tr out, runLoop step exh maxit fuel k s tr = .ok out →
      (∀ r ∈ out.trace, conv r = false) → out.iters = maxit := by
  intro fuel
  induction fuel with
  | zero =>
    intro k s tr out h _
    simp only [runLoop] at h
    split at h
    · cases h
    · cases h; rfl
  | succ fuel ih =>
    intro k s tr out h hnc
    simp only [runLoop] at h
    split at h
    · cases h
    · rename_i r1 root fval hstep
      have hc : conv r1 = true := (Hconv _ _ _ _ hstep).mp ⟨root, fval, rfl⟩
      cases h
      have hmem : r1 ∈ tr ++ [r1] := by simp
      have := hnc r1 hmem
      rw [hc] at this
      cases this
    · exact ih (k + 1) _ _ out h hnc

theorem runLoop_ok_lt_conv {S : Type}
    (step : ℕ → S → Except PyExc (IterationRecord × StepNext S))
    (exh : S → Except PyExc (Fl × Fl)) (maxit : ℕ) (conv : IterationRecord → Bool)
    (Hconv : ∀ k s r n, step k s = .ok (r, n) →
      ((∃ root fval, n = .stop root fval) ↔ conv r = true)) :
    ∀ fuel k s tr out, runLoop step exh maxit fuel k s tr = .ok out →
      out.iters < maxit →
      ∃ rl, out.trace.getLast? = some rl ∧ conv rl = true := by
  intro fuel
  induction fuel with
  | zero =>
    intro k s tr out h hlt
    simp only [runLoop] at h
    split at h
    · cases h
    · cases h; exact absurd hlt (by simp)
  | succ fuel ih =>
    intro k s tr out h hlt
    simp only [runLoop] at h
    split at h
    · cases h
    · rename_i r1 root fval hstep
      have hc : conv r1 = true := (Hconv _ _ _ _ hstep).mp ⟨root, fval, rfl⟩
      cases h
      exact ⟨r1, List.getLast?_concat _, hc⟩
    · exact ih (k + 1) _ _ out h hlt

theorem runLoop_congr {S : Type}
    (step1 step2 : ℕ → S → Except PyExc (IterationRecord × StepNext S))
    (exh : S → Except PyExc (Fl × Fl)) (maxit : ℕ)
    (H : ∀ k s, step1 k s = step2 k s) :
    ∀ fuel k s tr, runLoop step1 exh maxit fuel k s tr = runLoop step2 exh maxit fuel k s tr := by
  intro fuel
  induction fuel with
  | zero => intro k s tr; simp only [runLoop]
  | succ fuel ih =>
    intro k s tr
    simp only [runLoop, H k s]
    split
    · rfl
    · rfl
    · exact ih (k + 1) _ _

/-- Relation between two raised-or-returned values: equal, or both raised
exceptions of the same class (possibly different messages). -/
def ERel {α : Type} (a b : Except PyExc α) : Prop :=
  a = b ∨ ∃ e1 e2, a = .error e1 ∧ b = .error e2 ∧ e1.cls = e2.cls

/-- Observational agreement of two runs in the sense of the spec: both raise
an error of the same kind, or both return with the same root estimate,
function value and iteration count. -/
def sameOutcome : Except PyExc RunResult → Except PyExc RunResult → Prop
  | .error e1, .error e2 => e1.cls = e2.cls
  | .ok o1, .ok o2 => o1.root = o2.root ∧ o1.fval = o2.fval ∧ o1.iters = o2.iters
  | _, _ => False

theorem sameOutcome_of_eq {a b : Except PyExc RunResult} (h : a = b) : sameOutcome a b := by
  subst h
  cases a with
  | error e => exact rfl
  | ok o => exact ⟨rfl, rfl, rfl⟩

theorem runLoop_erel {S : Type}
    (step1 step2 : ℕ → S → Except PyExc (IterationRecord × StepNext S))
    (exh : S → Except PyExc (Fl × Fl)) (maxit : ℕ)
    (H : ∀ k s, ERel (step1 k s) (step2 k s)) :
    ∀ fuel k s tr, sameOutcome (runLoop step1 exh maxit fuel k s tr)
      (runLoop step2 exh maxit fuel k s tr) := by
  intro fuel
  induction fuel with
  | zero => intro k s tr; exact sameOutcome_of_eq rfl
  | succ fuel ih =>
    intro k s tr
    rcases H k s with heq | ⟨e1, e2, h1, h2, hcls⟩
    · simp only [runLoop, heq]
      split
      · exact rfl
      · exact ⟨rfl, rfl, rfl⟩
      · exact ih (k + 1) _ _
    · simp only [runLoop, h1, h2]
      exact hcls

/-! ## Step anatomy lemmas

For each loop body: the emitted record carries the loop index, the loop
returns early exactly when the convergence predicate holds of the emitted
record, the returned root and function value are those of the emitted
record, and a successful post-loop return after a continued iteration also
returns the values of the last emitted record. -/

theorem bisectionStep_anatomy (f : Ev) (tol : ℚ) (k : ℕ) (s : BState) (r : IterationRecord)
    (n : StepNext BState) (h : bisectionStep f tol k s = .ok (r, n)) :
    r.idx = k ∧
    ((∃ root fval, n = .stop root fval) ↔ convBisection tol r = true) ∧
    (∀ root fval, n = .stop root fval → root = r.est ∧ fval = r.fval) ∧
    (∀ s1 root fval, n = .go s1 → bisectionExh s1 = .ok (root, fval) →
      root = r.est ∧ fval = r.fval) := by
  simp only [bisectionStep] at h
  split at h
  · cases h
  · rename_i fc hfc
    split at h
    · rename_i hcond
      cases h
      refine ⟨rfl, ?_, ?_, ?_⟩
      · simp [convBisection, hcond]
      · intro root fval hst
        cases hst
        exact ⟨rfl, rfl⟩
      · intro s1 root fval hgo
        cases hgo
    · rename_i hcond
      split at h
      · cases h
        refine ⟨rfl, ?_, ?_, ?_⟩
        · simp [convBisection, hcond]
        · intro root fval hst
          cases hst
        · intro s1 root fval hgo hexh
          cases hgo
          simp only [bisectionExh] at hexh
          cases hexh
          exact ⟨rfl, rfl⟩
      · cases h
        refine ⟨rfl, ?_, ?_, ?_⟩
        · simp [convBisection, hcond]
        · intro root fval hst
          cases hst
        · intro s1 root fval hgo hexh
          cases hgo
          simp only [bisectionExh] at hexh
          cases hexh
          exact ⟨rfl, rfl⟩

theorem regulaFalsiStep_anatomy (f : Ev) (tol : ℚ) (k : ℕ) (s : RFState)
    (r : IterationRecord) (n : StepNext RFState)
    (h : regulaFalsiStep f tol k s = .ok (r, n)) :
    r.idx = k ∧
    ((∃ root fval, n = .stop root fval) ↔ convRegulaFalsi tol r = true) ∧
    (∀ root fval, n = .stop root fval → root = r.est ∧ fval = r.fval) ∧
    (∀ s1 root fval, n = .go s1 → regulaFalsiExh s1 = .ok (root, fval) →
      root = r.est ∧ fval = r.fval) := by
  simp only [regulaFalsiStep] at h
  split at h
  · cases h
  · rename_i c hc
    split at h
    · cases h
    · rename_i fc hfc
      split at h
      · rename_i hcond
        cases h
        refine ⟨rfl, ?_, ?_, ?_⟩
        · simp [convRegulaFalsi, hcond]
        · intro root fval hst
          cases hst
          exact ⟨rfl, rfl⟩
        · intro s1 root fval hgo
          cases hgo
      · rename_i hcond
        split at h
        · cases h
          refine ⟨rfl, ?_, ?_, ?_⟩
          · simp [convRegulaFalsi, hcond]
          · intro root fval hst
            cases hst
          · intro s1 root fval hgo hexh
            cases hgo
            simp only [regulaFalsiExh] at hexh
            cases hexh
            exact ⟨rfl, rfl⟩
        · cases h
          refine ⟨rfl, ?_, ?_, ?_⟩
          · simp [convRegulaFalsi, hcond]
          · intro root fval hst
            cases hst
          · intro s1 root fval hgo hexh
            cases hgo
            simp only [regulaFalsiExh] at hexh
            cases hexh
            exact ⟨rfl, rfl⟩

theorem secantStep_anatomy (f : Ev) (tol : ℚ) (k : ℕ) (s : SecState)
    (r : IterationRecord) (n : StepNext SecState)
    (h : secantStep f tol k s = .ok (r, n)) :
    r.idx = k ∧
    ((∃ root fval, n = .stop root fval) ↔ convDual tol r = true) ∧
    (∀ root fval, n = .stop root fval → root = r.est ∧ fval = r.fval) ∧
    (∀ s1 root fval, n = .go s1 → secantExh s1 = .ok (root, fval) →
      root = r.est ∧ fval = r.fval) := by
  simp only [secantStep] at h
  split at h
  · cases h
  · split at h
    · cases h
    · rename_i t ht
      split at h
      · cases h
      · rename_i fx2 hfx2
        split at h
        · rename_i hcond
          cases h
          refine ⟨rfl, ?_, ?_, ?_⟩
          · simp [convDual, hcond]
          · intro root fval hst
            cases hst
            exact ⟨rfl, rfl⟩
          · intro s1 root fval hgo
            cases hgo
        · rename_i hcond
          cases h
          refine ⟨rfl, ?_, ?_, ?_⟩
          · simp [convDual, hcond]
          · intro root fval hst
            cases hst
          · intro s1 root fval hgo hexh
            cases hgo
            simp only [secantExh] at hexh
            cases hexh
            exact ⟨rfl, rfl⟩

theorem newtonStep_anatomy (f df : Ev) (tol : ℚ) (k : ℕ) (s : NState)
    (r : IterationRecord) (n : StepNext NState)
    (h : newtonStep f df tol k s = .ok (r, n)) :
    r.idx = k ∧
    ((∃ root fval, n = .stop root fval) ↔ convDual tol r = true) ∧
    (∀ root fval, n = .stop root fval → root = r.est ∧ fval = r.fval) ∧
    (∀ s1 root fval, n = .go s1 → newtonExh f s1 = .ok (root, fval) →
      root = r.est ∧ fval = r.fval) := by
  simp only [newtonStep] at h
  split at h
  · cases h
  · split at h
    · cases h
    · split at h
      · cases h
      · split at h
        · cases h
        · split at h
          · cases h
          · rename_i fxn hfxn
            split at h
            · rename_i hcond
              cases h
              refine ⟨rfl, ?_, ?_, ?_⟩
              · simp [convDual, hcond]
              · intro root fval hst
                cases hst
                exact ⟨rfl, rfl⟩
              · intro s1 root fval hgo
                cases hgo
            · rename_i hcond
              cases h
              refine ⟨rfl, ?_, ?_, ?_⟩
              · simp [convDual, hcond]
              · intro root fval hst
                cases hst
              · intro s1 root fval hgo hexh
                cases hgo
                simp only [newtonExh, hfxn] at hexh
                cases hexh
                exact ⟨rfl, rfl⟩

theorem newtonListStep_anatomy (f df : Ev) (tol : ℚ) (k : ℕ) (s : NState)
    (r : IterationRecord) (n : StepNext NState)
    (h : newtonListStep f df tol k s = .ok (r, n)) :
    r.idx = k ∧
    ((∃ root fval, n = .stop root fval) ↔ convDual tol r = true) ∧
    (∀ root fval, n = .stop root fval → root = r.est ∧ fval = r.fval) ∧
    (∀ s1 root fval, n = .go s1 → newtonExh f s1 = .ok (root, fval) →
      root = r.est ∧ fval = r.fval) := by
  simp only [newtonListStep] at h
  split at h
  · cases h
  · split at h
    · cases h
    · split at h
      · cases h
      · split at h
        · cases h
        · split at h
          · cases h
          · rename_i fxn hfxn
            split at h
            · rename_i hcond
              cases h
              refine ⟨rfl, ?_, ?_, ?_⟩
              · simp [convDual, hcond]
              · intro root fval hst
                cases hst
                exact ⟨rfl, rfl⟩
              · intro s1 root fval hgo
                cases hgo
            · rename_i hcond
              cases h
              refine ⟨rfl, ?_, ?_, ?_⟩
              · simp [convDual, hcond]
              · intro root fval hst
                cases hst
              · intro s1 root fval hgo hexh
                cases hgo
                simp only [newtonExh, hfxn] at hexh
                cases hexh
                exact ⟨rfl, rfl⟩

theorem fixedPointStep_anatomy (g : Ev) (tol : ℚ) (k : ℕ) (s : FPState)
    (r : IterationRecord) (n : StepNext FPState)
    (h : fixedPointStep g tol k s = .ok (r, n)) :
    r.idx = k ∧
    ((∃ root fval, n = .stop root fval) ↔ convFixedPoint tol r = true) ∧
    (∀ root fval, n = .stop root fval → root = r.est ∧ fval = r.fval) ∧
    (∀ s1 root fval, n = .go s1 → fixedPointExh g s1 = .ok (root, fval) →
      root = r.est ∧ fval = r.fval) := by
  simp only [fixedPointStep] at h
  split at h
  · cases h
  · rename_i xn hxn
    split at h
    · rename_i hcond
      cases h
      refine ⟨rfl, ?_, ?_, ?_⟩
      · simp [convFixedPoint, hcond]
      · intro root fval hst
        cases hst
        exact ⟨rfl, rfl⟩
      · intro s1 root fval hgo
        cases hgo
    · rename_i hcond
      cases h
      refine ⟨rfl, ?_, ?_, ?_⟩
      · simp [convFixedPoint, hcond]
      · intro root fval hst
        cases hst
      · intro s1 root fval hgo hexh
        cases hgo
        simp only [fixedPointExh] at hexh
        cases hg : g xn with
        | ok q => simp only [Ev.call, hg] at hexh; cases hexh; exact ⟨rfl, by simp [hg]⟩
        | nan => simp only [Ev.call, hg] at hexh; cases hexh; exact ⟨rfl, by simp [hg]⟩
        | exn e => simp only [Ev.call, hg] at hexh; cases hexh

theorem fixedPointListStep_anatomy (g : Ev) (tol : ℚ) (k : ℕ) (s : FPState)
    (r : IterationRecord) (n : StepNext FPState)
    (h : fixedPointListStep g tol k s = .ok (r, n)) :
    r.idx = k ∧
    ((∃ root fval, n = .stop root fval) ↔ convFixedPoint tol r = true) ∧
    (∀ root fval, n = .stop root fval → root = r.est ∧ fval = r.fval) ∧
    (∀ s1 root fval, n = .go s1 → fixedPointExh g s1 = .ok (root, fval) →
      root = r.est ∧ fval = r.fval) := by
  simp only [fixedPointListStep] at h
  split at h
  · cases h
  · rename_i xn hxn
    split at h
    · cases h
    · rename_i gx hgx
      split at h
      · rename_i hcond
        split at h
        · rename_i e hgx2
          cases hgx2
        · rename_i v hgx2
          cases hgx2
          cases h
          refine ⟨rfl, ?_, ?_, ?_⟩
          · simp [convFixedPoint, hcond]
          · intro root fval hst
            cases hst
            exact ⟨rfl, rfl⟩
          · intro s1 root fval hgo
            cases hgo
      · rename_i hcond
        cases h
        refine ⟨rfl, ?_, ?_, ?_⟩
        · simp [convFixedPoint, hcond]
        · intro root fval hst
          cases hst
        · intro s1 root fval hgo hexh
          cases hgo
          simp only [fixedPointExh, hgx] at hexh
          cases hexh
          exact ⟨rfl, rfl⟩

theorem modSecantStep_anatomy (f : Ev) (x0 delta tol : ℚ) (k : ℕ) (s : MSState)
    (r : IterationRecord) (n : StepNext MSState)
    (h : modSecantStep f x0 delta tol k s = .ok (r, n)) :
    r.idx = k ∧
    ((∃ root fval, n = .stop root fval) ↔ convDual tol r = true) ∧
    (∀ root fval, n = .stop root fval → root = r.est ∧ fval = r.fval) ∧
    (∀ s1 root fval, n = .go s1 → modSecantExh f s1 = .ok (root, fval) →
      root = r.est ∧ fval = r.fval) := by
  simp only [modSecantStep] at h
  split at h
  · cases h
  · split at h
    · cases h
    · split at h
      · cases h
      · split at h
        · cases h
        · split at h
          · cases h
          · rename_i fxn hfxn
            split at h
            · rename_i hcond
              cases h
              refine ⟨rfl, ?_, ?_, ?_⟩
              · simp [convDual, hcond]
              · intro root fval hst
                cases hst
                exact ⟨rfl, rfl⟩
              · intro s1 root fval hgo
                cases hgo
            · rename_i hcond
              cases h
              refine ⟨rfl, ?_, ?_, ?_⟩
              · simp [convDual, hcond]
              · intro root fval hst
                cases hst
              · intro s1 root fval hgo hexh
                cases hgo
                simp only [modSecantExh, hfxn] at hexh
                cases hexh
                exact ⟨rfl, rfl⟩

/-! ## Run level contracts

`RunContract run conv maxit` collects the shared loop facts about a run that
returns without raising: at least one and at most `maxit` iterations, a
nonempty trace indexed 1,2,...,n, the returned triple coming from the last
record, exhaustion exactly when no record satisfied the convergence
predicate, and early return only by a converged last record. -/

def RunContract (run : Except PyExc RunResult) (conv : IterationRecord → Bool)
    (maxit : ℕ) : Prop :=
  ∀ out, run = .ok out →
    (1 ≤ out.iters ∧ out.iters ≤ maxit) ∧
    out.trace ≠ [] ∧
    out.trace.map IterationRecord.idx = List.range' 1 out.trace.length ∧
    (∃ rl, out.trace.getLast? = some rl ∧ out.root = rl.est ∧ out.fval = rl.fval ∧
      out.iters = rl.idx) ∧
    ((∀ r ∈ out.trace, conv r = false) → out.iters = maxit) ∧
    (out.iters < maxit → ∃ rl, out.trace.getLast? = some rl ∧ conv rl = true)

theorem runLoop_contract {S : Type}
    (step : ℕ → S → Except PyExc (IterationRecord × StepNext S))
    (exh : S → Except PyExc (Fl × Fl)) (maxit : ℕ) (conv : IterationRecord → Bool)
    (Hana : ∀ k s r n, step k s = .ok (r, n) →
      r.idx = k ∧
      ((∃ root fval, n = .stop root fval) ↔ conv r = true) ∧
      (∀ root fval, n = .stop root fval → root = r.est ∧ fval = r.fval) ∧
      (∀ s1 root fval, n = .go s1 → exh s1 = .ok (root, fval) →
        root = r.est ∧ fval = r.fval))
    (hm : 1 ≤ maxit) (s0 : S) :
    RunContract (runLoop step exh maxit maxit 1 s0 []) conv maxit := by
  intro out h
  have Hidx : ∀ k s r n, step k s = .ok (r, n) → r.idx = k :=
    fun k s r n hh => (Hana k s r n hh).1
  have Hconv : ∀ k s r n, step k s = .ok (r, n) →
      ((∃ root fval, n = .stop root fval) ↔ conv r = true) :=
    fun k s r n hh => (Hana k s r n hh).2.1
  have Hstop : ∀ k s r root fval, step k s = .ok (r, .stop root fval) →
      root = r.est ∧ fval = r.fval :=
    fun k s r root fval hh => (Hana k s r _ hh).2.2.1 root fval rfl
  have Hgo : ∀ k s r s1 root fval, step k s = .ok (r, .go s1) →
      exh s1 = .ok (root, fval) → root = r.est ∧ fval = r.fval :=
    fun k s r s1 root fval hh hx => (Hana k s r _ hh).2.2.2 s1 root fval rfl hx
  obtain ⟨hne, hmap, hlast⟩ :=
    runLoop_ok_trace_spec step exh maxit Hidx Hstop Hgo maxit 1 s0 [] out
      (by omega) hm rfl rfl (fun h0 => absurd h0 (by omega)) h
  refine ⟨⟨runLoop_ok_one_le_iters step exh maxit hm maxit 1 s0 [] out (le_refl 1) h,
    runLoop_ok_iters_le step exh maxit maxit 1 s0 [] out (by omega) h⟩,
    hne, hmap, hlast,
    fun hnc => runLoop_ok_noconv step exh maxit conv Hconv maxit 1 s0 [] out h hnc,
    fun hlt => runLoop_ok_lt_conv step exh maxit conv Hconv maxit 1 s0 [] out h hlt⟩

/-! ## Entry elimination lemmas: a run that returned a result passed its
entry checks and ran the loop from the corresponding initial state. -/

theorem bisection_ok_elim (f : Ev) (a b tol : ℚ) (maxit : ℕ) (out : RunResult)
    (h : bisection f a b tol maxit = .ok out) :
    ∃ fa fb, Ev.call f (some a) = .ok fa ∧ Ev.call f (some b) = .ok fb ∧
      runLoop (bisectionStep f tol) bisectionExh maxit maxit 1 ⟨a, b, fa, fb, a, none⟩ []
        = .ok out := by
  simp only [bisection] at h
  split at h
  · cases h
  · rename_i fa hfa
    split at h
    · cases h
    · rename_i fb hfb
      split at h
      · cases h
      · split at h
        · cases h
        · exact ⟨fa, fb, hfa, hfb, h⟩

theorem bisection_list_ok_elim (f : Ev) (a b tol : ℚ) (maxit : ℕ) (out : RunResult)
    (h : bisection_list f a b tol maxit = .ok out) :
    ∃ fa fb, Ev.call f (some a) = .ok fa ∧ Ev.call f (some b) = .ok fb ∧
      runLoop (bisectionStep f tol) bisectionExh maxit maxit 1 ⟨a, b, fa, fb, a, none⟩ []
        = .ok out := by
  simp only [bisection_list] at h
  split at h
  · cases h
  · rename_i fa hfa
    split at h
    · cases h
    · rename_i fb hfb
      split at h
      · cases h
      · exact ⟨fa, fb, hfa, hfb, h⟩

theorem regula_falsi_ok_elim (f : Ev) (a b tol : ℚ) (maxit : ℕ) (out : RunResult)
    (h : regula_falsi f a b tol maxit = .ok out) :
    ∃ fa fb, Ev.call f (some a) = .ok fa ∧ Ev.call f (some b) = .ok fb ∧
      runLoop (regulaFalsiStep f tol) regulaFalsiExh maxit maxit 1
        ⟨some a, some b, fa, fb, some a, none⟩ [] = .ok out := by
  simp only [regula_falsi] at h
  split at h
  · cases h
  · rename_i fa hfa
    split at h
    · cases h
    · rename_i fb hfb
      split at h
      · cases h
      · exact ⟨fa, fb, hfa, hfb, h⟩

theorem secant_ok_elim (f : Ev) (x0 x1 tol : ℚ) (maxit : ℕ) (out : RunResult)
    (h : secant f x0 x1 tol maxit = .ok out) :
    ∃ f0 f1, Ev.call f (some x0) = .ok f0 ∧ Ev.call f (some x1) = .ok f1 ∧
      runLoop (secantStep f tol) secantExh maxit maxit 1
        ⟨some x0, f0, some x1, f1, none, none⟩ [] = .ok out := by
  simp only [secant] at h
  split at h
  · cases h
  · rename_i f0 hf0
    split at h
    · cases h
    · rename_i f1 hf1
      exact ⟨f0, f1, hf0, hf1, h⟩

/-- The two regula falsi transcriptions are the same function. -/
theorem regula_falsi_list_eq (f : Ev) (a b tol : ℚ) (maxit : ℕ) :
    regula_falsi_list f a b tol maxit = regula_falsi f a b tol maxit := rfl

/-- The two secant transcriptions are the same function. -/
theorem secant_list_eq (f : Ev) (x0 x1 tol : ℚ) (maxit : ℕ) :
    secant_list f x0 x1 tol maxit = secant f x0 x1 tol maxit := rfl

/-- The two modified secant transcriptions are the same function. -/
theorem modified_secant_list_eq (f : Ev) (x0 delta tol : ℚ) (maxit : ℕ) :
    modified_secant_list f x0 delta tol maxit = modified_secant f x0 delta tol maxit := rfl

/-! ## Per run contract lemmas -/

theorem bisection_contract (f : Ev) (a b tol : ℚ) (maxit : ℕ) (hm : 1 ≤ maxit) :
    RunContract (bisection f a b tol maxit) (convBisection tol) maxit := by
  intro out h
  obtain ⟨fa, fb, _, _, hrun⟩ := bisection_ok_elim f a b tol maxit out h
  exact runLoop_contract (bisectionStep f tol) bisectionExh maxit (convBisection tol)
    (bisectionStep_anatomy f tol) hm ⟨a, b, fa, fb, a, none⟩ out hrun

theorem bisection_list_contract (f : Ev) (a b tol : ℚ) (maxit : ℕ) (hm : 1 ≤ maxit) :
    RunContract (bisection_list f a b tol maxit) (convBisection tol) maxit := by
  intro out h
  obtain ⟨fa, fb, _, _, hrun⟩ := bisection_list_ok_elim f a b tol maxit out h
  exact runLoop_contract (bisectionStep f tol) bisectionExh maxit (convBisection tol)
    (bisectionStep_anatomy f tol) hm ⟨a, b, fa, fb, a, none⟩ out hrun

theorem regula_falsi_contract (f : Ev) (a b tol : ℚ) (maxit : ℕ) (hm : 1 ≤ maxit) :
    RunContract (regula_falsi f a b tol maxit) (convRegulaFalsi tol) maxit := by
  intro out h
  obtain ⟨fa, fb, _, _, hrun⟩ := regula_falsi_ok_elim f a b tol maxit out h
  exact runLoop_contract (regulaFalsiStep f tol) regulaFalsiExh maxit (convRegulaFalsi tol)
    (regulaFalsiStep_anatomy f tol) hm ⟨some a, some b, fa, fb, some a, none⟩ out hrun

theorem regula_falsi_list_contract (f : Ev) (a b tol : ℚ) (maxit : ℕ) (hm : 1 ≤ maxit) :
    RunContract (regula_falsi_list f a b tol maxit) (convRegulaFalsi tol) maxit := by
  rw [RunContract]
  intro out h
  rw [regula_falsi_list_eq] at h
  exact regula_falsi_contract f a b tol maxit hm out h

theorem secant_contract (f : Ev) (x0 x1 tol : ℚ) (maxit : ℕ) (hm : 1 ≤ maxit) :
    RunContract (secant f x0 x1 tol maxit) (convDual tol) maxit := by
  intro out h
  obtain ⟨f0, f1, _, _, hrun⟩ := secant_ok_elim f x0 x1 tol maxit out h
  exact runLoop_contract (secantStep f tol) secantExh maxit (convDual tol)
    (secantStep_anatomy f tol) hm ⟨some x0, f0, some x1, f1, none, none⟩ out hrun

theorem secant_list_contract (f : Ev) (x0 x1 tol : ℚ) (maxit : ℕ) (hm : 1 ≤ maxit) :
    RunContract (secant_list f x0 x1 tol maxit) (convDual tol) maxit := by
  rw [RunContract]
  intro out h
  rw [secant_list_eq] at h
  exact secant_contract f x0 x1 tol maxit hm out h

theorem newton_raphson_contract (f df : Ev) (x0 tol : ℚ) (maxit : ℕ) (hm : 1 ≤ maxit) :
    RunContract (newton_raphson f df x0 tol maxit) (convDual tol) maxit := by
  intro out h
  simp only [newton_raphson] at h
  exact runLoop_contract (newtonStep f df tol) (newtonExh f) maxit (convDual tol)
    (newtonStep_anatomy f df tol) hm ⟨some x0⟩ out h

theorem newton_list_contract (f df : Ev) (x0 tol : ℚ) (maxit : ℕ) (hm : 1 ≤ maxit) :
    RunContract (newton_list f df x0 tol maxit) (convDual tol) maxit := by
  intro out h
  simp only [newton_list] at h
  exact runLoop_contract (newtonListStep f df tol) (newtonExh f) maxit (convDual tol)
    (newtonListStep_anatomy f df tol) hm ⟨some x0⟩ out h

theorem fixed_point_contract (g : Ev) (x0 tol : ℚ) (maxit : ℕ) (hm : 1 ≤ maxit) :
    RunContract (fixed_point g x0 tol maxit) (convFixedPoint tol) maxit := by
  intro out h
  simp only [fixed_point] at h
  exact runLoop_contract (fixedPointStep g tol) (fixedPointExh g) maxit (convFixedPoint tol)
    (fixedPointStep_anatomy g tol) hm ⟨some x0⟩ out h

theorem fixed_point_list_contract (g : Ev) (x0 tol : ℚ) (maxit : ℕ) (hm : 1 ≤ maxit) :
    RunContract (fixed_point_list g x0 tol maxit) (convFixedPoint tol) maxit := by
  intro out h
  simp only [fixed_point_list] at h
  exact runLoop_contract (fixedPointListStep g tol) (fixedPointExh g) maxit (convFixedPoint tol)
    (fixedPointListStep_anatomy g tol) hm ⟨some x0⟩ out h

theorem modified_secant_contract (f : Ev) (x0 delta tol : ℚ) (maxit : ℕ) (hm : 1 ≤ maxit) :
    RunContract (modified_secant f x0 delta tol maxit) (convDual tol) maxit := by
  intro out h
  simp only [modified_secant] at h
  exact runLoop_contract (modSecantStep f x0 delta tol) (modSecantExh f) maxit (convDual tol)
    (modSecantStep_anatomy f x0 delta tol) hm ⟨some x0⟩ out h

theorem modified_secant_list_contract (f : Ev) (x0 delta tol : ℚ) (maxit : ℕ)
    (hm : 1 ≤ maxit) :
    RunContract (modified_secant_list f x0 delta tol maxit) (convDual tol) maxit := by
  rw [RunContract]
  intro out h
  rw [modified_secant_list_eq] at h
  exact modified_secant_contract f x0 delta tol maxit hm out h

/-! ## Small helper lemmas about evaluators and division -/

/-- An evaluator built from a total rational function never raises. -/
theorem pureEv_no_exn (φ : ℚ → ℚ) (z : Fl) (e : PyExc) : pureEv φ z ≠ .exn e := by
  cases z with
  | some q => simp [pureEv]
  | none => simp [pureEv]

/-- Calling a never-raising evaluator always yields a value. -/
theorem Ev_call_ok (f : Ev) (hf : ∀ z e0, f z ≠ .exn e0) (z : Fl) :
    ∃ v, Ev.call f z = .ok v := by
  unfold Ev.call
  cases hz : f z with
  | ok q => exact ⟨some q, rfl⟩
  | nan => exact ⟨none, rfl⟩
  | exn e => exact absurd hz (hf z e)

/-- Division by a value that is not an exact zero never raises. -/
theorem Fl_div_ok (x d : Fl) (hd : d.beq (some 0) = false) : ∃ v, Fl.div x d = .ok v := by
  cases d with
  | none => exact ⟨none, rfl⟩
  | some b =>
    have hb : ¬b = 0 := by
      intro h0
      rw [h0] at hd
      simp [Fl.beq] at hd
    simp only [Fl.div, if_neg hb]
    cases x with
    | some a => exact ⟨some (a / b), rfl⟩
    | none => exact ⟨none, rfl⟩

/-- The Python float equality test on the difference succeeds exactly when
the two values are the same (non-NaN) number. -/
theorem Fl_sub_beq_zero (x y : Fl) :
    (x.sub y).beq (some 0) = true ↔ ∃ q, y = some q ∧ x = some q := by
  cases x with
  | none => simp [Fl.sub, Fl.beq]
  | some a =>
    cases y with
    | none => simp [Fl.sub, Fl.beq]
    | some b =>
      simp only [Fl.sub, Fl.beq, decide_eq_true_eq, sub_eq_zero, Option.some.injEq]
      constructor
      · intro h
        exact ⟨b, rfl, h⟩
      · rintro ⟨q, rfl, h2⟩
        exact h2

/-- On a never-raising evaluator the secant loop body raises exactly the
division-by-zero error, exactly when the two window values are equal. -/
theorem secantStep_error_iff (f : Ev) (tol : ℚ) (k : ℕ) (s : SecState) (e : PyExc)
    (hf : ∀ z e0, f z ≠ .exn e0) :
    secantStep f tol k s = .error e ↔
      e = ⟨.zeroDivisionError, "Division by zero in Secant method."⟩ ∧
        (s.f1.sub s.f0).beq (some 0) = true := by
  constructor
  · intro h
    simp only [secantStep] at h
    split at h
    · rename_i hbeq
      cases h
      exact ⟨rfl, hbeq⟩
    · rename_i hbeq
      have hbeq' : (s.f1.sub s.f0).beq (some 0) = false := by
        simpa using hbeq
      obtain ⟨t, ht⟩ := Fl_div_ok (s.f1.mul (s.x1.sub s.x0)) (s.f1.sub s.f0) hbeq'
      rw [ht] at h
      obtain ⟨v, hv⟩ := Ev_call_ok f hf (s.x1.sub t)
      simp only [hv] at h
      split at h
      · cases h
      · cases h
  · rintro ⟨rfl, hbeq⟩
    simp [secantStep, hbeq]

/-- Secant seeded at two points with the same function value fails at once
with the division-by-zero error, producing no iteration record; both the
CLI and the web variant. -/
theorem secant_equal_values (f : Ev) (x0 x1 tol : ℚ) (maxit : ℕ) (q : ℚ)
    (hm : 1 ≤ maxit) (h0 : f (some x0) = .ok q) (h1 : f (some x1) = .ok q) :
    secant f x0 x1 tol maxit =
      .error ⟨.zeroDivisionError, "Division by zero in Secant method."⟩ ∧
    secant_list f x0 x1 tol maxit =
      .error ⟨.zeroDivisionError, "Division by zero in Secant method."⟩ := by
  have hc0 : Ev.call f (some x0) = .ok (some q) := by simp [Ev.call, h0]
  have hc1 : Ev.call f (some x1) = .ok (some q) := by simp [Ev.call, h1]
  have hstep : secantStep f tol 1 ⟨some x0, some q, some x1, some q, none, none⟩ =
      .error ⟨.zeroDivisionError, "Division by zero in Secant method."⟩ := by
    simp [secantStep, Fl.sub, Fl.beq]
  have hs : secant f x0 x1 tol maxit =
      .error ⟨.zeroDivisionError, "Division by zero in Secant method."⟩ := by
    simp only [secant, hc0, hc1]
    cases maxit with
    | zero => omega
    | succ m =>
      simp only [runLoop, hstep]
  exact ⟨hs, by rw [secant_list_eq]; exact hs⟩

/-- Newton at a point with an exactly zero derivative fails at once with the
zero-derivative error (whatever the function value there); both variants,
whose messages differ. -/
theorem newton_zero_deriv (f df : Ev) (x0 tol : ℚ) (maxit : ℕ) (q : ℚ)
    (hm : 1 ≤ maxit) (hf : f (some x0) = .ok q) (hdf : df (some x0) = .ok 0) :
    newton_raphson f df x0 tol maxit =
      .error ⟨.zeroDivisionError, "Zero derivative encountered in Newton-Raphson."⟩ ∧
    newton_list f df x0 tol maxit =
      .error ⟨.zeroDivisionError, "Zero derivative in Newton."⟩ := by
  have hc : Ev.call f (some x0) = .ok (some q) := by simp [Ev.call, hf]
  have hd : Ev.call df (some x0) = .ok (some 0) := by simp [Ev.call, hdf]
  cases maxit with
  | zero => omega
  | succ m =>
    constructor
    · simp only [newton_raphson, runLoop]
      have hstep : newtonStep f df tol 1 ⟨some x0⟩ =
          .error ⟨.zeroDivisionError, "Zero derivative encountered in Newton-Raphson."⟩ := by
        simp [newtonStep, hc, hd, Fl.beq]
      simp only [hstep]
    · simp only [newton_list, runLoop]
      have hstep : newtonListStep f df tol 1 ⟨some x0⟩ =
          .error ⟨.zeroDivisionError, "Zero derivative in Newton."⟩ := by
        simp [newtonListStep, hc, hd, Fl.beq]
      simp only [hstep]

/-! ## Cross variant equivalence helpers -/

/-- When neither endpoint evaluates to NaN, the CLI and web bisection runs
are the same (the only textual difference of the two entries is the NaN
check of the CLI). -/
theorem bisection_eq_of_no_nan (f : Ev) (a b tol : ℚ) (maxit : ℕ)
    (ha : f (some a) ≠ .nan) (hb : f (some b) ≠ .nan) :
    bisection f a b tol maxit = bisection_list f a b tol maxit := by
  simp only [bisection, bisection_list, Ev.call]
  cases hfa : f (some a) with
  | exn e => rfl
  | nan => exact absurd hfa ha
  | ok qa =>
    cases hfb : f (some b) with
    | exn e => rfl
    | nan => exact absurd hfb hb
    | ok qb => simp [Fl.isnan]

/-- When the evaluator never raises, the CLI and web fixed point loop bodies
agree (the try/except of the CLI never fires, and the repeated evaluation of
the web variant returns the same value). -/
theorem fixedPointStep_eq_of_no_exn (g : Ev) (tol : ℚ) (hg : ∀ z e, g z ≠ .exn e)
    (k : ℕ) (s : FPState) : fixedPointStep g tol k s = fixedPointListStep g tol k s := by
  simp only [fixedPointStep, fixedPointListStep]
  cases hxi : g s.xi with
  | exn e => exact absurd hxi (hg s.xi e)
  | nan =>
    simp only [Ev.call, hxi]
    cases hg2 : g none with
    | exn e => exact absurd hg2 (hg none e)
    | ok q => simp [Ev.call, hg2]
    | nan => simp [Ev.call, hg2]
  | ok q0 =>
    simp only [Ev.call, hxi]
    cases hg2 : g (some q0) with
    | exn e => exact absurd hg2 (hg _ e)
    | ok q => simp [Ev.call, hg2]
    | nan => simp [Ev.call, hg2]

/-- When the evaluator never raises the two fixed point variants coincide. -/
theorem fixed_point_eq_of_no_exn (g : Ev) (x0 tol : ℚ) (maxit : ℕ)
    (hg : ∀ z e, g z ≠ .exn e) :
    fixed_point g x0 tol maxit = fixed_point_list g x0 tol maxit := by
  simp only [fixed_point, fixed_point_list]
  exact runLoop_congr _ _ (fixedPointExh g) maxit
    (fixedPointStep_eq_of_no_exn g tol hg) maxit 1 ⟨some x0⟩ []

/-- The CLI and web Newton loop bodies agree up to the message of the
zero-derivative error (same error class). -/
theorem newtonStep_erel (f df : Ev) (tol : ℚ) (k : ℕ) (s : NState) :
    ERel (newtonStep f df tol k s) (newtonListStep f df tol k s) := by
  simp only [newtonStep, newtonListStep]
  cases h1 : Ev.call f s.xi with
  | error e => exact Or.inl rfl
  | ok fxi =>
    cases h2 : Ev.call df s.xi with
    | error e => exact Or.inl rfl
    | ok dfxi =>
      by_cases hb : dfxi.beq (some 0) = true
      · simp only [hb, if_true]
        exact Or.inr ⟨_, _, rfl, rfl, rfl⟩
      · simp only [hb, if_false]
        exact Or.inl rfl

/-- The CLI and web Newton runs agree observationally: same error class on
failure, same returned triple on success. -/
theorem newton_sameOutcome (f df : Ev) (x0 tol : ℚ) (maxit : ℕ) :
    sameOutcome (newton_raphson f df x0 tol maxit) (newton_list f df x0 tol maxit) := by
  simp only [newton_raphson, newton_list]
  exact runLoop_erel _ _ (newtonExh f) maxit (newtonStep_erel f df tol) maxit 1 ⟨some x0⟩ []

/-! ## Bracket invariant (claim about bisection and regula falsi) -/

/-- The strict bracket invariant of a bisection loop state under a pure
evaluator: the cached values are the function values at the endpoints and
the function changes sign strictly across the bracket. -/
def BInv (φ : ℚ → ℚ) (s : BState) : Prop :=
  s.fa = some (φ s.a) ∧ s.fb = some (φ s.b) ∧ φ s.a * φ s.b < 0

/-- The strict bracket invariant of a regula falsi loop state under a pure
evaluator. -/
def RFInv (φ : ℚ → ℚ) (s : RFState) : Prop :=
  ∃ qa qb, s.a = some qa ∧ s.b = some qb ∧ s.fa = some (φ qa) ∧ s.fb = some (φ qb) ∧
    φ qa * φ qb < 0

/-- If A and B have strictly opposite signs and A and C do not (with C
nonzero), then C and B have strictly opposite signs: the bracket update rule
preserves a strict sign change. -/
theorem sign_flip (A B C : ℚ) (hAB : A * B < 0) (hAC : 0 ≤ A * C) (hC : C ≠ 0) :
    C * B < 0 := by
  have hA : A ≠ 0 := fun h0 => by rw [h0, zero_mul] at hAB; exact lt_irrefl 0 hAB
  have hpos : 0 < A * C := lt_of_le_of_ne hAC (fun h0 => (mul_ne_zero hA hC) h0.symm)
  rcases mul_pos_iff.mp hpos with ⟨ha1, hc1⟩ | ⟨ha1, hc1⟩
  · rcases mul_neg_iff.mp hAB with ⟨ha2, hb2⟩ | ⟨ha2, hb2⟩
    · exact mul_neg_of_pos_of_neg hc1 hb2
    · linarith
  · rcases mul_neg_iff.mp hAB with ⟨ha2, hb2⟩ | ⟨ha2, hb2⟩
    · linarith
    · exact mul_neg_of_neg_of_pos hc1 hb2

/-- A bisection loop body started in a strict-bracket state that continues
the loop continues in a strict-bracket state. -/
theorem bisectionStep_preserves_inv (φ : ℚ → ℚ) (tol : ℚ) (k : ℕ) (s s1 : BState)
    (r : IterationRecord) (hinv : BInv φ s)
    (h : bisectionStep (pureEv φ) tol k s = .ok (r, .go s1)) : BInv φ s1 := by
  obtain ⟨hfa, hfb, hprod⟩ := hinv
  have hcall : Ev.call (pureEv φ) (some ((s.a + s.b) / 2)) =
      .ok (some (φ ((s.a + s.b) / 2))) := by
    simp [Ev.call, pureEv]
  simp only [bisectionStep, hcall] at h
  split at h
  · cases h
  · rename_i hcond
    split at h
    · rename_i hlt
      cases h
      refine ⟨hfa, rfl, ?_⟩
      rw [hfa] at hlt
      simpa [Fl.mul, Fl.blt] using hlt
    · rename_i hlt
      cases h
      refine ⟨rfl, hfb, ?_⟩
      rw [hfa] at hlt
      have hge : 0 ≤ φ s.a * φ ((s.a + s.b) / 2) := by
        simpa [Fl.mul, Fl.blt, not_lt] using hlt
      have hcne : φ ((s.a + s.b) / 2) ≠ 0 := by
        intro h0
        apply hcond
        simp [Fl.fabs, Fl.beq, h0]
      exact sign_flip (φ s.a) (φ s.b) (φ ((s.a + s.b) / 2)) hprod hge hcne

/-- A regula falsi loop body started in a strict-bracket state that
continues the loop continues in a strict-bracket state; this needs the
positive tolerance to rule out an update at an exact zero residual. -/
theorem regulaFalsiStep_preserves_inv (φ : ℚ → ℚ) (tol : ℚ) (k : ℕ) (s s1 : RFState)
    (r : IterationRecord) (htol : 0 < tol) (hinv : RFInv φ s)
    (h : regulaFalsiStep (pureEv φ) tol k s = .ok (r, .go s1)) : RFInv φ s1 := by
  obtain ⟨qa, qb, ha, hb, hfa, hfb, hprod⟩ := hinv
  have hden : φ qb - φ qa ≠ 0 := by
    intro h0
    have : φ qb = φ qa := by linarith
    rw [this] at hprod
    nlinarith [sq_nonneg (φ qa)]
  have hdiv : Fl.div ((s.a.mul s.fb).sub (s.b.mul s.fa)) (s.fb.sub s.fa) =
      .ok (some ((qa * φ qb - qb * φ qa) / (φ qb - φ qa))) := by
    rw [ha, hb, hfa, hfb]
    simp [Fl.mul, Fl.sub, Fl.div, hden]
  have hcall : Ev.call (pureEv φ) (some ((qa * φ qb - qb * φ qa) / (φ qb - φ qa))) =
      .ok (some (φ ((qa * φ qb - qb * φ qa) / (φ qb - φ qa)))) := by
    simp [Ev.call, pureEv]
  simp only [regulaFalsiStep, hdiv, hcall] at h
  split at h
  · cases h
  · rename_i hcond
    split at h
    · rename_i hlt
      cases h
      refine ⟨qa, (qa * φ qb - qb * φ qa) / (φ qb - φ qa), ha, rfl, hfa, rfl, ?_⟩
      rw [hfa] at hlt
      simpa [Fl.mul, Fl.blt] using hlt
    · rename_i hlt
      cases h
      refine ⟨(qa * φ qb - qb * φ qa) / (φ qb - φ qa), qb, rfl, hb, rfl, hfb, ?_⟩
      rw [hfa] at hlt
      have hge : 0 ≤ φ qa * φ ((qa * φ qb - qb * φ qa) / (φ qb - φ qa)) := by
        simpa [Fl.mul, Fl.blt, not_lt] using hlt
      have hcne : φ ((qa * φ qb - qb * φ qa) / (φ qb - φ qa)) ≠ 0 := by
        intro h0
        apply hcond
        simp [Fl.fabs, Fl.blt, h0, htol, abs_of_nonneg]
      exact sign_flip (φ qa) (φ qb) _ hprod hge hcne

/-! ## Modified secant: constant perturbation and step characterization -/

/-- The loop body of the code (which recomputes the perturbation each
iteration from the parameters x0 and delta) is the loop body with the
perturbation precomputed once from the seed. -/
theorem modSecantStep_eq_constp (f : Ev) (x0 delta tol : ℚ) (k : ℕ) (s : MSState) :
    modSecantStep f x0 delta tol k s =
      modSecantPStep f (if x0 ≠ 0 then x0 * delta else delta) tol k s := rfl

/-- The modified secant run equals the run with the perturbation computed
once from the seed: the perturbation never depends on the current iterate. -/
theorem modified_secant_eq_constp (f : Ev) (x0 delta tol : ℚ) (maxit : ℕ) :
    modified_secant f x0 delta tol maxit = modified_secant_constp f x0 delta tol maxit := by
  simp only [modified_secant, modified_secant_constp]
  exact runLoop_congr _ _ (modSecantExh f) maxit
    (modSecantStep_eq_constp f x0 delta tol) maxit 1 ⟨some x0⟩ []

/-- On a pure evaluator the modified secant loop body at iterate w raises
the denominator-zero error exactly when the finite difference vanishes, and
otherwise computes the next iterate by the documented formula. -/
theorem modSecantStep_pure_char (φ : ℚ → ℚ) (x0 delta tol : ℚ) (k : ℕ) (w p : ℚ)
    (hp : p = if x0 ≠ 0 then x0 * delta else delta) :
    (modSecantStep (pureEv φ) x0 delta tol k ⟨some w⟩ =
        .error ⟨.zeroDivisionError, "Denominator zero in Modified Secant."⟩ ↔
      φ (w + p) - φ w = 0) ∧
    (φ (w + p) - φ w ≠ 0 →
      ∃ r1 nx, modSecantStep (pureEv φ) x0 delta tol k ⟨some w⟩ = .ok (r1, nx) ∧
        r1.est = some (w - φ w * p / (φ (w + p) - φ w))) := by
  have hpe : (if x0 ≠ 0 then x0 * delta else delta) = p := hp.symm
  by_cases hz : φ (w + p) - φ w = 0
  · have hstep : modSecantStep (pureEv φ) x0 delta tol k ⟨some w⟩ =
        .error ⟨.zeroDivisionError, "Denominator zero in Modified Secant."⟩ := by
      simp [modSecantStep, hpe, Ev.call, pureEv, Fl.add, Fl.sub, Fl.beq, hz]
    refine ⟨by simp [hstep, hz], fun hnz => absurd hz hnz⟩
  · have hstep : modSecantStep (pureEv φ) x0 delta tol k ⟨some w⟩ =
        (if Fl.blt (some (|φ w * p / (φ (w + p) - φ w)|)) (some tol) ||
            Fl.blt (some (|φ (w - φ w * p / (φ (w + p) - φ w))|)) (some tol)
         then .ok (⟨k, some (w - φ w * p / (φ (w + p) - φ w)),
                     some (φ (w - φ w * p / (φ (w + p) - φ w))),
                     some (|φ w * p / (φ (w + p) - φ w)|)⟩,
               .stop (some (w - φ w * p / (φ (w + p) - φ w)))
                     (some (φ (w - φ w * p / (φ (w + p) - φ w)))))
         else .ok (⟨k, some (w - φ w * p / (φ (w + p) - φ w)),
                     some (φ (w - φ w * p / (φ (w + p) - φ w))),
                     some (|φ w * p / (φ (w + p) - φ w)|)⟩,
               .go ⟨some (w - φ w * p / (φ (w + p) - φ w))⟩)) := by
      simp [modSecantStep, hpe, Ev.call, pureEv, Fl.add, Fl.sub, Fl.beq, Fl.mul, Fl.div,
        Fl.fabs, hz]
    constructor
    · rw [hstep]
      constructor
      · intro h
        split at h
        · cases h
        · cases h
      · intro h
        exact absurd h hz
    · intro _
      rw [hstep]
      split
      · exact ⟨_, _, rfl, rfl⟩
      · exact ⟨_, _, rfl, rfl⟩

/-! ## Claim level properties -/

/-- Exhaustion-cap property of a run (claim C3): a returned result uses at
most maxit iterations; if no record met the convergence predicate the count
is exactly maxit; the returned root is the last computed estimate; and a
count below maxit means the final record converged. -/
def ExhaustionCap (run : Except PyExc RunResult) (conv : IterationRecord → Bool)
    (maxit : ℕ) : Prop :=
  ∀ out, run = .ok out →
    out.iters ≤ maxit ∧
    ((∀ r ∈ out.trace, conv r = false) → out.iters = maxit) ∧
    (∃ rl, out.trace.getLast? = some rl ∧ out.root = rl.est) ∧
    (out.iters < maxit → ∃ rl, out.trace.getLast? = some rl ∧ conv rl = true)

/-- Trace-link property of a run (claim C9): a returned result has a
nonempty trace indexed 1..n, and its root, function value and iteration
count are those of the last record. -/
def TraceLink (run : Except PyExc RunResult) : Prop :=
  ∀ out, run = .ok out →
    out.trace ≠ [] ∧
    out.trace.map IterationRecord.idx = List.range' 1 out.trace.length ∧
    ∃ rl, out.trace.getLast? = some rl ∧ out.root = rl.est ∧ out.fval = rl.fval ∧
      out.iters = rl.idx

/-- Lower bound property of a run (claim C10): a returned result used at
least one iteration and produced at least one record. -/
def IterLower (run : Except PyExc RunResult) : Prop :=
  ∀ out, run = .ok out → 1 ≤ out.iters ∧ out.trace ≠ []

theorem runContract_cap (run : Except PyExc RunResult) (conv : IterationRecord → Bool)
    (maxit : ℕ) (h : RunContract run conv maxit) : ExhaustionCap run conv maxit := by
  intro out ho
  obtain ⟨⟨_, h2⟩, _, _, ⟨rl, hl, he, _, _⟩, h5, h6⟩ := h out ho
  exact ⟨h2, h5, ⟨rl, hl, he⟩, h6⟩

theorem runContract_traceLink (run : Except PyExc RunResult) (conv : IterationRecord → Bool)
    (maxit : ℕ) (h : RunContract run conv maxit) : TraceLink run := by
  intro out ho
  obtain ⟨_, h2, h3, h4, _, _⟩ := h out ho
  exact ⟨h2, h3, h4⟩

theorem runContract_iterLower (run : Except PyExc RunResult) (conv : IterationRecord → Bool)
    (maxit : ℕ) (h : RunContract run conv maxit) : IterLower run := by
  intro out ho
  obtain ⟨⟨h1, _⟩, h2, _⟩ := h out ho
  exact ⟨h1, h2⟩

/-! ## Concrete evaluators used in counterexamples and witnesses -/

/-- An evaluator that returns NaN at 1 and the value q - 5 elsewhere. -/
def fNanAt1 : Ev := fun z =>
  match z with
  | some q => if q = 1 then .nan else .ok (q - 5)
  | none => .nan

/-- An evaluator that returns 1 at 0 and raises ValueError elsewhere:
the diagnostic evaluation of the fixed point methods then raises. -/
def gDiagBoom : Ev := fun z =>
  match z with
  | some q => if q = 0 then .ok 1 else .exn ⟨.valueError, "boom"⟩
  | none => .nan

/-! ## Claim theorems -/

/-- C4: at each iteration the secant loop body fails with the
DivisionByZeroError exactly when the function values at the two current
window points are equal (the Python test `f1 - f0 == 0` holds exactly when
both are the same non-NaN number); and seeds with equal function values make
both secant variants fail on the first step, the failure carrying no run
result and hence no iteration record. -/
theorem claim4_secant_failure :
    (∀ (f : Ev) (tol : ℚ) (k : ℕ) (s : SecState) (e : PyExc), (∀ z e0, f z ≠ .exn e0) →
      (secantStep f tol k s = .error e ↔
        e = ⟨.zeroDivisionError, "Division by zero in Secant method."⟩ ∧
          (s.f1.sub s.f0).beq (some 0) = true)) ∧
    (∀ x y : Fl, (x.sub y).beq (some 0) = true ↔ ∃ q, y = some q ∧ x = some q) ∧
    (∀ (f : Ev) (x0 x1 tol : ℚ) (maxit : ℕ) (q : ℚ), 1 ≤ maxit →
      f (some x0) = .ok q → f (some x1) = .ok q →
      secant f x0 x1 tol maxit =
        .error ⟨.zeroDivisionError, "Division by zero in Secant method."⟩ ∧
      secant_list f x0 x1 tol maxit =
        .error ⟨.zeroDivisionError, "Division by zero in Secant method."⟩) :=
  ⟨fun f tol k s e hf => secantStep_error_iff f tol k s e hf,
   Fl_sub_beq_zero,
   fun f x0 x1 tol maxit q hm h0 h1 => secant_equal_values f x0 x1 tol maxit q hm h0 h1⟩

/-- C4 witness: a concrete constant function makes both secant variants fail
with the division-by-zero error on the first step. -/
theorem claim4_witness :
    secant (pureEv fun _ => 1) 0 1 (1/1000) 5 =
      .error ⟨.zeroDivisionError, "Division by zero in Secant method."⟩ ∧
    secant_list (pureEv fun _ => 1) 0 1 (1/1000) 5 =
      .error ⟨.zeroDivisionError, "Division by zero in Secant method."⟩ :=
  claim4_secant_failure.2.2 (pureEv fun _ => 1) 0 1 (1/1000) 5 1 (by omega)
    (by with_unfolding_all rfl) (by with_unfolding_all rfl)

/-- C5: the perturbation of modified secant is the single constant computed
from the seed (x0 times delta when x0 is nonzero, else delta): both code
variants equal the run with that constant precomputed; and on a pure
evaluator each loop body fails with the DivisionByZeroError exactly when the
finite difference denominator vanishes, and otherwise the next estimate is
xi - f(xi) times perturb over the denominator. -/
theorem claim5_modified_secant_perturbation :
    (∀ (f : Ev) (x0 delta tol : ℚ) (maxit : ℕ),
      modified_secant f x0 delta tol maxit = modified_secant_constp f x0 delta tol maxit ∧
      modified_secant_list f x0 delta tol maxit = modified_secant_constp f x0 delta tol maxit) ∧
    (∀ (φ : ℚ → ℚ) (x0 delta tol : ℚ) (k : ℕ) (w p : ℚ),
      p = (if x0 ≠ 0 then x0 * delta else delta) →
      ((modSecantStep (pureEv φ) x0 delta tol k ⟨some w⟩ =
          .error ⟨.zeroDivisionError, "Denominator zero in Modified Secant."⟩) ↔
        φ (w + p) - φ w = 0) ∧
      (φ (w + p) - φ w ≠ 0 →
        ∃ r1 nx, modSecantStep (pureEv φ) x0 delta tol k ⟨some w⟩ = .ok (r1, nx) ∧
          r1.est = some (w - φ w * p / (φ (w + p) - φ w)))) :=
  ⟨fun f x0 delta tol maxit =>
    ⟨modified_secant_eq_constp f x0 delta tol maxit,
     by rw [modified_secant_list_eq]; exact modified_secant_eq_constp f x0 delta tol maxit⟩,
   fun φ x0 delta tol k w p hp => modSecantStep_pure_char φ x0 delta tol k w p hp⟩

/-- C5 witness: a constant function produces the zero denominator at a
concrete seed, and the constant-perturbation reading agrees on a concrete
run. -/
theorem claim5_witness :
    modSecantStep (pureEv fun _ => 1) 1 (1/2) (1/10) 1 ⟨some 1⟩ =
      .error ⟨.zeroDivisionError, "Denominator zero in Modified Secant."⟩ ∧
    modified_secant (pureEv fun q => q * q) 1 (1/2) (1/10) 3 =
      modified_secant_constp (pureEv fun q => q * q) 1 (1/2) (1/10) 3 :=
  ⟨(claim5_modified_secant_perturbation.2 (fun _ => 1) 1 (1/2) (1/10) 1 1 (1/2)
      (by norm_num)).1.mpr (by norm_num),
   (claim5_modified_secant_perturbation.1 (pureEv fun q => q * q) 1 (1/2) (1/10) 3).1⟩

/-- C9: for all twelve run functions (both variants of the six methods), a
run that returns a result has a nonempty trace indexed exactly 1..n, and
the returned root estimate, function value and iteration count are the
estimate, function value and index of the last produced record. -/
theorem claim9_trace_link (f df g : Ev) (a b x0 x1 delta tol : ℚ) (maxit : ℕ)
    (hm : 1 ≤ maxit) :
    TraceLink (bisection f a b tol maxit) ∧
    TraceLink (bisection_list f a b tol maxit) ∧
    TraceLink (regula_falsi f a b tol maxit) ∧
    TraceLink (regula_falsi_list f a b tol maxit) ∧
    TraceLink (secant f x0 x1 tol maxit) ∧
    TraceLink (secant_list f x0 x1 tol maxit) ∧
    TraceLink (newton_raphson f df x0 tol maxit) ∧
    TraceLink (newton_list f df x0 tol maxit) ∧
    TraceLink (fixed_point g x0 tol maxit) ∧
    TraceLink (fixed_point_list g x0 tol maxit) ∧
    TraceLink (modified_secant f x0 delta tol maxit) ∧
    TraceLink (modified_secant_list f x0 delta tol maxit) :=
  ⟨runContract_traceLink _ _ _ (bisection_contract f a b tol maxit hm),
   runContract_traceLink _ _ _ (bisection_list_contract f a b tol maxit hm),
   runContract_traceLink _ _ _ (regula_falsi_contract f a b tol maxit hm),
   runContract_traceLink _ _ _ (regula_falsi_list_contract f a b tol maxit hm),
   runContract_traceLink _ _ _ (secant_contract f x0 x1 tol maxit hm),
   runContract_traceLink _ _ _ (secant_list_contract f x0 x1 tol maxit hm),
   runContract_traceLink _ _ _ (newton_raphson_contract f df x0 tol maxit hm),
   runContract_traceLink _ _ _ (newton_list_contract f df x0 tol maxit hm),
   runContract_traceLink _ _ _ (fixed_point_contract g x0 tol maxit hm),
   runContract_traceLink _ _ _ (fixed_point_list_contract g x0 tol maxit hm),
   runContract_traceLink _ _ _ (modified_secant_contract f x0 delta tol maxit hm),
   runContract_traceLink _ _ _ (modified_secant_list_contract f x0 delta tol maxit hm)⟩

/-- C9 witness: a concrete bisection run whose trace is nonempty, as given
by the trace-link property. -/
theorem claim9_witness :
    (⟨[⟨1, some 1, some 1, some 1⟩, ⟨2, some (3/2), some (3/2), some (1/2)⟩],
        some (3/2), some (3/2), 2⟩ : RunResult).trace ≠ [] :=
  ((claim9_trace_link (pureEv fun q => q) (pureEv fun q => q) (pureEv fun q => q)
      0 2 0 1 1 (1/10) 2 (by omega)).1 _ (by with_unfolding_all rfl)).1

/-- C3 counterexample: with a positive tolerance and maxit at least 1, a
secant run on a constant function meets no convergence predicate and yet
fails (with the division-by-zero error) instead of returning the last
estimate: the claim, which says such a run does not fail, is false. -/
theorem claim3_counterexample :
    (0 : ℚ) < 1/1000 ∧ (1 : ℕ) ≤ 5 ∧
    secant (pureEv fun _ => 1) 0 1 (1/1000) 5 =
      .error ⟨.zeroDivisionError, "Division by zero in Secant method."⟩ := by
  refine ⟨by norm_num, by omega, by with_unfolding_all rfl⟩

/-- C3 amended: for every method and variant, any run that returns a result
uses at most maxit iterations; a returned run none of whose records met the
convergence predicate used exactly maxit iterations and returned the last
computed estimate; and a count below maxit means the final record
converged.  (A run can also fail mid-loop with a fatal arithmetic error
before any predicate is met, and a run converging exactly at step maxit also
shows iterations_used = maxit.) -/
theorem claim3_amended (f df g : Ev) (a b x0 x1 delta tol : ℚ) (maxit : ℕ)
    (hm : 1 ≤ maxit) :
    ExhaustionCap (bisection f a b tol maxit) (convBisection tol) maxit ∧
    ExhaustionCap (bisection_list f a b tol maxit) (convBisection tol) maxit ∧
    ExhaustionCap (regula_falsi f a b tol maxit) (convRegulaFalsi tol) maxit ∧
    ExhaustionCap (regula_falsi_list f a b tol maxit) (convRegulaFalsi tol) maxit ∧
    ExhaustionCap (secant f x0 x1 tol maxit) (convDual tol) maxit ∧
    ExhaustionCap (secant_list f x0 x1 tol maxit) (convDual tol) maxit ∧
    ExhaustionCap (newton_raphson f df x0 tol maxit) (convDual tol) maxit ∧
    ExhaustionCap (newton_list f df x0 tol maxit) (convDual tol) maxit ∧
    ExhaustionCap (fixed_point g x0 tol maxit) (convFixedPoint tol) maxit ∧
    ExhaustionCap (fixed_point_list g x0 tol maxit) (convFixedPoint tol) maxit ∧
    ExhaustionCap (modified_secant f x0 delta tol maxit) (convDual tol) maxit ∧
    ExhaustionCap (modified_secant_list f x0 delta tol maxit) (convDual tol) maxit :=
  ⟨runContract_cap _ _ _ (bisection_contract f a b tol maxit hm),
   runContract_cap _ _ _ (bisection_list_contract f a b tol maxit hm),
   runContract_cap _ _ _ (regula_falsi_contract f a b tol maxit hm),
   runContract_cap _ _ _ (regula_falsi_list_contract f a b tol maxit hm),
   runContract_cap _ _ _ (secant_contract f x0 x1 tol maxit hm),
   runContract_cap _ _ _ (secant_list_contract f x0 x1 tol maxit hm),
   runContract_cap _ _ _ (newton_raphson_contract f df x0 tol maxit hm),
   runContract_cap _ _ _ (newton_list_contract f df x0 tol maxit hm),
   runContract_cap _ _ _ (fixed_point_contract g x0 tol maxit hm),
   runContract_cap _ _ _ (fixed_point_list_contract g x0 tol maxit hm),
   runContract_cap _ _ _ (modified_secant_contract f x0 delta tol maxit hm),
   runContract_cap _ _ _ (modified_secant_list_contract f x0 delta tol maxit hm)⟩

/-- C3 witness: on a concrete exhausted bisection run the iteration count is
bounded by maxit. -/
theorem claim3_witness :
    (⟨[⟨1, some 1, some 1, some 1⟩, ⟨2, some (3/2), some (3/2), some (1/2)⟩],
        some (3/2), some (3/2), 2⟩ : RunResult).iters ≤ 2 :=
  ((claim3_amended (pureEv fun q => q) (pureEv fun q => q) (pureEv fun q => q)
      0 2 0 1 1 (1/10) 2 (by omega)).1 _ (by with_unfolding_all rfl)).1

/-- C10: for every method and variant with maxit at least 1, a run that
returns a result performed at least one iteration and produced at least one
record (there is no pre-loop convergence check); and Newton seeded at a
point where the function value is 0 but the derivative is also 0 still
fails with the zero-derivative error instead of returning the root. -/
theorem claim10_at_least_one_iteration :
    (∀ (f df g : Ev) (a b x0 x1 delta tol : ℚ) (maxit : ℕ), 1 ≤ maxit →
      IterLower (bisection f a b tol maxit) ∧
      IterLower (bisection_list f a b tol maxit) ∧
      IterLower (regula_falsi f a b tol maxit) ∧
      IterLower (regula_falsi_list f a b tol maxit) ∧
      IterLower (secant f x0 x1 tol maxit) ∧
      IterLower (secant_list f x0 x1 tol maxit) ∧
      IterLower (newton_raphson f df x0 tol maxit) ∧
      IterLower (newton_list f df x0 tol maxit) ∧
      IterLower (fixed_point g x0 tol maxit) ∧
      IterLower (fixed_point_list g x0 tol maxit) ∧
      IterLower (modified_secant f x0 delta tol maxit) ∧
      IterLower (modified_secant_list f x0 delta tol maxit)) ∧
    (∀ (f df : Ev) (x0 tol : ℚ) (maxit : ℕ), 1 ≤ maxit →
      f (some x0) = .ok 0 → df (some x0) = .ok 0 →
      newton_raphson f df x0 tol maxit =
        .error ⟨.zeroDivisionError, "Zero derivative encountered in Newton-Raphson."⟩ ∧
      newton_list f df x0 tol maxit =
        .error ⟨.zeroDivisionError, "Zero derivative in Newton."⟩) :=
  ⟨fun f df g a b x0 x1 delta tol maxit hm =>
    ⟨runContract_iterLower _ _ _ (bisection_contract f a b tol maxit hm),
     runContract_iterLower _ _ _ (bisection_list_contract f a b tol maxit hm),
     runContract_iterLower _ _ _ (regula_falsi_contract f a b tol maxit hm),
     runContract_iterLower _ _ _ (regula_falsi_list_contract f a b tol maxit hm),
     runContract_iterLower _ _ _ (secant_contract f x0 x1 tol maxit hm),
     runContract_iterLower _ _ _ (secant_list_contract f x0 x1 tol maxit hm),
     runContract_iterLower _ _ _ (newton_raphson_contract f df x0 tol maxit hm),
     runContract_iterLower _ _ _ (newton_list_contract f df x0 tol maxit hm),
     runContract_iterLower _ _ _ (fixed_point_contract g x0 tol maxit hm),
     runContract_iterLower _ _ _ (fixed_point_list_contract g x0 tol maxit hm),
     runContract_iterLower _ _ _ (modified_secant_contract f x0 delta tol maxit hm),
     runContract_iterLower _ _ _ (modified_secant_list_contract f x0 delta tol maxit hm)⟩,
   fun f df x0 tol maxit hm hf hdf => newton_zero_deriv f df x0 tol maxit 0 hm hf hdf⟩

/-- C10 witness: a concrete converged run used at least one iteration, and a
concrete Newton run with zero function value and zero derivative at the seed
fails with the zero-derivative error. -/
theorem claim10_witness :
    1 ≤ (⟨[⟨1, some 1, some 1, some 1⟩, ⟨2, some (3/2), some (3/2), some (1/2)⟩],
        some (3/2), some (3/2), 2⟩ : RunResult).iters ∧
    newton_raphson (pureEv fun _ => 0) (pureEv fun _ => 0) 1 (1/10) 5 =
      .error ⟨.zeroDivisionError, "Zero derivative encountered in Newton-Raphson."⟩ :=
  ⟨(((claim10_at_least_one_iteration.1 (pureEv fun q => q) (pureEv fun q => q)
      (pureEv fun q => q) 0 2 0 1 1 (1/10) 2 (by omega)).1) _ (by with_unfolding_all rfl)).1,
   (claim10_at_least_one_iteration.2 (pureEv fun _ => 0) (pureEv fun _ => 0) 1 (1/10) 5
      (by omega) (by with_unfolding_all rfl) (by with_unfolding_all rfl)).1⟩

/-- C1 counterexample: the web bisection variant performs no NaN check: with
an evaluator that is NaN at the endpoint 1, the run does not fail with the
DomainError but proceeds into the loop and returns normally, even producing
an iteration record. -/
theorem claim1_counterexample :
    fNanAt1 (some 1) = .nan ∧
    bisection_list fNanAt1 1 2 (1/4) 1 =
      .ok ⟨[⟨1, some (3/2), some (-7/2), some (1/2)⟩], some (3/2), some (-7/2), 1⟩ := by
  refine ⟨by with_unfolding_all rfl, by with_unfolding_all rfl⟩

/-- C1 amended: with endpoints whose function values are numbers of positive
product, both bisection variants fail with the InvalidBracketError message
before the loop (for every tolerance and every maxit, including 0, so with
zero iterations and no record, the failure carrying no run result); the
NaN check, failing with the DomainError message, exists in the CLI variant
only. -/
theorem claim1_amended :
    (∀ (f : Ev) (a b tol : ℚ) (maxit : ℕ) (qa qb : ℚ),
      f (some a) = .ok qa → f (some b) = .ok qb → qa * qb > 0 →
      bisection f a b tol maxit =
        .error ⟨.valueError, "f(a) and f(b) must have opposite signs for bisection."⟩ ∧
      bisection_list f a b tol maxit =
        .error ⟨.valueError, "f(a) and f(b) must have opposite signs for bisection."⟩) ∧
    (∀ (f : Ev) (a b tol : ℚ) (maxit : ℕ),
      (f (some a) = .nan ∨ f (some b) = .nan) →
      (∀ e, f (some a) ≠ .exn e) → (∀ e, f (some b) ≠ .exn e) →
      bisection f a b tol maxit =
        .error ⟨.valueError, "Function returned NaN on interval endpoints."⟩) := by
  constructor
  · intro f a b tol maxit qa qb hfa hfb hpos
    have hca : Ev.call f (some a) = .ok (some qa) := by simp [Ev.call, hfa]
    have hcb : Ev.call f (some b) = .ok (some qb) := by simp [Ev.call, hfb]
    constructor
    · simp [bisection, hca, hcb, Fl.isnan, Fl.mul, Fl.bgt, Fl.blt, hpos]
    · simp [bisection_list, hca, hcb, Fl.mul, Fl.bgt, Fl.blt, hpos]
  · intro f a b tol maxit hnan hea heb
    cases hfa : f (some a) with
    | exn e => exact absurd hfa (hea e)
    | nan =>
      cases hfb : f (some b) with
      | exn e => exact absurd hfb (heb e)
      | nan => simp [bisection, Ev.call, hfa, hfb, Fl.isnan]
      | ok qb => simp [bisection, Ev.call, hfa, hfb, Fl.isnan]
    | ok qa =>
      cases hfb : f (some b) with
      | exn e => exact absurd hfb (heb e)
      | nan => simp [bisection, Ev.call, hfa, hfb, Fl.isnan]
      | ok qb =>
        rcases hnan with h | h
        · rw [hfa] at h
          cases h
        · rw [hfb] at h
          cases h

/-- C1 witness: the spec scenario f(x) = x^2 + 1 on the bracket 1, 2 makes
both variants fail with the InvalidBracketError message. -/
theorem claim1_witness :
    bisection (pureEv fun q => q * q + 1) 1 2 (1/100) 50 =
      .error ⟨.valueError, "f(a) and f(b) must have opposite signs for bisection."⟩ ∧
    bisection_list (pureEv fun q => q * q + 1) 1 2 (1/100) 50 =
      .error ⟨.valueError, "f(a) and f(b) must have opposite signs for bisection."⟩ :=
  claim1_amended.1 (pureEv fun q => q * q + 1) 1 2 (1/100) 50 2 5
    (by with_unfolding_all rfl) (by with_unfolding_all rfl) (by norm_num)

/-- C2 counterexample: an entry bracket with a zero endpoint satisfies the
precondition (the code accepts it: the product test is not positive, and
0 * 2 ≤ 0), yet after the first bracket update the state has function values
1 and 2, whose product 2 is not ≤ 0: the invariant is broken by an update. -/
theorem claim2_counterexample :
    Fl.bgt (Fl.mul (some 0) (some 2)) (some 0) = false ∧
    ((0 : ℚ) * 2 ≤ 0) ∧
    bisectionStep (pureEv fun q => q) (1/10) 1 ⟨0, 2, some 0, some 2, 0, none⟩ =
      .ok (⟨1, some 1, some 1, some 1⟩, .go ⟨1, 2, some 1, some 2, 1, some 1⟩) ∧
    Fl.mul (some 1) (some 2) = some 2 ∧
    ¬((1 : ℚ) * 2 ≤ 0) := by
  refine ⟨by with_unfolding_all decide, by norm_num, by with_unfolding_all rfl,
    by with_unfolding_all rfl, by norm_num⟩

/-- C2 amended: under a strict entry sign change (f(a) times f(b) strictly
negative) and a pure evaluator, the bracket invariant holds of the initial
state and is preserved by every bracket update of the bisection and regula
falsi loop bodies (regula falsi additionally needing the positive
tolerance); the strict invariant implies the stated product inequality
f(a) times f(b) ≤ 0. -/
theorem claim2_amended :
    (∀ (φ : ℚ → ℚ) (a b : ℚ), φ a * φ b < 0 →
      BInv φ ⟨a, b, some (φ a), some (φ b), a, none⟩) ∧
    (∀ (φ : ℚ → ℚ) (tol : ℚ) (k : ℕ) (s s1 : BState) (r : IterationRecord),
      BInv φ s → bisectionStep (pureEv φ) tol k s = .ok (r, .go s1) → BInv φ s1) ∧
    (∀ (φ : ℚ → ℚ) (a b : ℚ), φ a * φ b < 0 →
      RFInv φ ⟨some a, some b, some (φ a), some (φ b), some a, none⟩) ∧
    (∀ (φ : ℚ → ℚ) (tol : ℚ) (k : ℕ) (s s1 : RFState) (r : IterationRecord),
      0 < tol → RFInv φ s → regulaFalsiStep (pureEv φ) tol k s = .ok (r, .go s1) →
      RFInv φ s1) ∧
    (∀ (φ : ℚ → ℚ) (s : BState), BInv φ s →
      s.fa.mul s.fb = some (φ s.a * φ s.b) ∧ φ s.a * φ s.b ≤ 0) := by
  refine ⟨fun φ a b h => ⟨rfl, rfl, h⟩,
    fun φ tol k s s1 r hinv h => bisectionStep_preserves_inv φ tol k s s1 r hinv h,
    fun φ a b h => ⟨a, b, rfl, rfl, rfl, rfl, h⟩,
    fun φ tol k s s1 r htol hinv h =>
      regulaFalsiStep_preserves_inv φ tol k s s1 r htol hinv h,
    fun φ s hinv => ?_⟩
  obtain ⟨h1, h2, h3⟩ := hinv
  refine ⟨?_, le_of_lt h3⟩
  rw [h1, h2]
  rfl

/-- C2 witness: a concrete strict bracket state is preserved by a concrete
bisection update. -/
theorem claim2_witness :
    BInv (fun q => q - 5/4) ⟨1, 3/2, some (-1/4), some (1/4), 3/2, some (1/4)⟩ :=
  claim2_amended.2.1 (fun q => q - 5/4) (1/10) 1 ⟨1, 2, some (-1/4), some (3/4), 1, none⟩
    ⟨1, 3/2, some (-1/4), some (1/4), 3/2, some (1/4)⟩ ⟨1, some (3/2), some (1/4), some (1/2)⟩
    (by refine ⟨?_, ?_, ?_⟩ <;> with_unfolding_all decide)
    (by with_unfolding_all rfl)

/-- C6 counterexample: the web fixed point variant evaluates the diagnostic
value unprotected: with an evaluator that raises away from the seed, the
web run propagates the exception to the caller, while the CLI run records
NaN for the diagnostic value and returns normally. -/
theorem claim6_counterexample :
    fixed_point_list gDiagBoom 0 2 3 = .error ⟨.valueError, "boom"⟩ ∧
    fixed_point gDiagBoom 0 2 3 = .ok ⟨[⟨1, some 1, none, some 1⟩], some 1, none, 1⟩ := by
  refine ⟨by with_unfolding_all rfl, by with_unfolding_all rfl⟩

/-- C6 amended: in the CLI fixed point loop body, when the primary
evaluation succeeds and the diagnostic evaluation of g at the next point
raises, the body still returns normally, records NaN as the function value,
and continues (or converges) exactly as the step test dictates; the web
variant propagates such an exception (see the counterexample). -/
theorem claim6_amended (g : Ev) (tol : ℚ) (k : ℕ) (s : FPState) (xn : Fl) (e : PyExc)
    (hxn : Ev.call g s.xi = .ok xn) (hg : g xn = .exn e) :
    fixedPointStep g tol k s =
      .ok (⟨k, xn, none, (xn.sub s.xi).fabs⟩,
        if (xn.sub s.xi).fabs.blt (some tol) then .stop xn none else .go ⟨xn⟩) := by
  simp only [fixedPointStep, hxn, hg]
  split
  · rfl
  · rfl

/-- C6 witness: a concrete diagnostic failure is recorded as NaN and the
step converges normally. -/
theorem claim6_witness :
    fixedPointStep gDiagBoom 2 1 ⟨some 0⟩ = .ok (⟨1, some 1, none, some 1⟩, .stop (some 1) none) := by
  have h := claim6_amended gDiagBoom 2 1 ⟨some 0⟩ (some 1) ⟨.valueError, "boom"⟩
    (by with_unfolding_all rfl) (by with_unfolding_all rfl)
  rw [h]
  with_unfolding_all rfl

/-- C7 counterexample: the Newton zero-derivative failure and the secant
division-by-zero failure are raised with the same Python exception class
(ZeroDivisionError): a concrete run of each produces errors whose classes
are equal, so the two kinds are not distinct as typed errors. -/
theorem claim7_counterexample :
    newton_raphson (pureEv fun _ => 1) (pureEv fun _ => 0) 0 (1/100) 5 =
      .error ⟨.zeroDivisionError, "Zero derivative encountered in Newton-Raphson."⟩ ∧
    secant (pureEv fun _ => 1) 2 3 (1/100) 5 =
      .error ⟨.zeroDivisionError, "Division by zero in Secant method."⟩ ∧
    (⟨.zeroDivisionError, "Zero derivative encountered in Newton-Raphson."⟩ : PyExc).cls =
      (⟨.zeroDivisionError, "Division by zero in Secant method."⟩ : PyExc).cls := by
  refine ⟨by with_unfolding_all rfl, by with_unfolding_all rfl, rfl⟩

/-- C7 amended: both failures are raised as the same exception class
(ZeroDivisionError in Python); a caller can distinguish them only by the
message text, which does differ. -/
theorem claim7_amended :
    (∀ (f df : Ev) (x0 tol : ℚ) (maxit : ℕ) (q : ℚ), 1 ≤ maxit →
      f (some x0) = .ok q → df (some x0) = .ok 0 →
      newton_raphson f df x0 tol maxit =
        .error ⟨.zeroDivisionError, "Zero derivative encountered in Newton-Raphson."⟩) ∧
    (∀ (f : Ev) (x0 x1 tol : ℚ) (maxit : ℕ) (q : ℚ), 1 ≤ maxit →
      f (some x0) = .ok q → f (some x1) = .ok q →
      secant f x0 x1 tol maxit =
        .error ⟨.zeroDivisionError, "Division by zero in Secant method."⟩) ∧
    (⟨.zeroDivisionError, "Zero derivative encountered in Newton-Raphson."⟩ : PyExc).cls =
      (⟨.zeroDivisionError, "Division by zero in Secant method."⟩ : PyExc).cls ∧
    "Zero derivative encountered in Newton-Raphson." ≠ "Division by zero in Secant method." :=
  ⟨fun f df x0 tol maxit q hm hf hdf => (newton_zero_deriv f df x0 tol maxit q hm hf hdf).1,
   fun f x0 x1 tol maxit q hm h0 h1 => (secant_equal_values f x0 x1 tol maxit q hm h0 h1).1,
   rfl, by decide⟩

/-- C7 witness: concrete failing runs of both methods through the amended
statement. -/
theorem claim7_witness :
    newton_raphson (pureEv fun _ => 1) (pureEv fun _ => 0) 0 (1/50) 7 =
      .error ⟨.zeroDivisionError, "Zero derivative encountered in Newton-Raphson."⟩ ∧
    secant (pureEv fun _ => 3) 0 1 (1/50) 7 =
      .error ⟨.zeroDivisionError, "Division by zero in Secant method."⟩ :=
  ⟨claim7_amended.1 (pureEv fun _ => 1) (pureEv fun _ => 0) 0 (1/50) 7 1 (by omega)
      (by with_unfolding_all rfl) (by with_unfolding_all rfl),
   claim7_amended.2.1 (pureEv fun _ => 3) 0 1 (1/50) 7 3 (by omega)
      (by with_unfolding_all rfl) (by with_unfolding_all rfl)⟩

/-- C8 counterexample: at a NaN endpoint the CLI bisection fails with the
DomainError while the web variant returns a result: the two variants do not
have the same outcome for every evaluator. -/
theorem claim8_counterexample :
    bisection fNanAt1 1 2 (1/4) 1 =
      .error ⟨.valueError, "Function returned NaN on interval endpoints."⟩ ∧
    bisection_list fNanAt1 1 2 (1/4) 1 =
      .ok ⟨[⟨1, some (3/2), some (-7/2), some (1/2)⟩], some (3/2), some (-7/2), 1⟩ ∧
    ¬ sameOutcome (bisection fNanAt1 1 2 (1/4) 1) (bisection_list fNanAt1 1 2 (1/4) 1) := by
  have h1 : bisection fNanAt1 1 2 (1/4) 1 =
      .error ⟨.valueError, "Function returned NaN on interval endpoints."⟩ := by
    with_unfolding_all rfl
  have h2 : bisection_list fNanAt1 1 2 (1/4) 1 =
      .ok ⟨[⟨1, some (3/2), some (-7/2), some (1/2)⟩], some (3/2), some (-7/2), 1⟩ := by
    with_unfolding_all rfl
  refine ⟨h1, h2, ?_⟩
  intro hso
  rw [h1, h2] at hso
  exact hso

/-- C8 amended: regula falsi, secant and modified secant have literally
identical CLI and web code, Newton agrees up to the error message (same
error class, same returned triple), bisection agrees whenever neither
endpoint value is NaN (the web variant omits the NaN check), and fixed
point agrees whenever the evaluator never raises (the web variant does not
guard the diagnostic evaluation). -/
theorem claim8_amended (f df g : Ev) (a b x0 x1 delta tol : ℚ) (maxit : ℕ) :
    ((f (some a) ≠ .nan) → (f (some b) ≠ .nan) →
      sameOutcome (bisection f a b tol maxit) (bisection_list f a b tol maxit)) ∧
    sameOutcome (regula_falsi f a b tol maxit) (regula_falsi_list f a b tol maxit) ∧
    sameOutcome (secant f x0 x1 tol maxit) (secant_list f x0 x1 tol maxit) ∧
    sameOutcome (newton_raphson f df x0 tol maxit) (newton_list f df x0 tol maxit) ∧
    ((∀ z e, g z ≠ .exn e) →
      sameOutcome (fixed_point g x0 tol maxit) (fixed_point_list g x0 tol maxit)) ∧
    sameOutcome (modified_secant f x0 delta tol maxit)
      (modified_secant_list f x0 delta tol maxit) :=
  ⟨fun ha hb => sameOutcome_of_eq (bisection_eq_of_no_nan f a b tol maxit ha hb),
   sameOutcome_of_eq (regula_falsi_list_eq f a b tol maxit).symm,
   sameOutcome_of_eq (secant_list_eq f x0 x1 tol maxit).symm,
   newton_sameOutcome f df x0 tol maxit,
   fun hg => sameOutcome_of_eq (fixed_point_eq_of_no_exn g x0 tol maxit hg),
   sameOutcome_of_eq (modified_secant_list_eq f x0 delta tol maxit).symm⟩

/-- C8 witness: concrete agreeing runs of the bisection and fixed point
variants under the amended side conditions. -/
theorem claim8_witness :
    sameOutcome (bisection (pureEv fun q => q - 3/2) 1 2 (1/10) 3)
      (bisection_list (pureEv fun q => q - 3/2) 1 2 (1/10) 3) ∧
    sameOutcome (fixed_point (pureEv fun q => q / 2) 1 (1/10) 3)
      (fixed_point_list (pureEv fun q => q / 2) 1 (1/10) 3) :=
  ⟨(claim8_amended (pureEv fun q => q - 3/2) (pureEv fun q => q - 3/2)
      (pureEv fun q => q / 2) 1 2 1 0 0 (1/10) 3).1
      (by with_unfolding_all decide) (by with_unfolding_all decide),
   (claim8_amended (pureEv fun q => q - 3/2) (pureEv fun q => q - 3/2)
      (pureEv fun q => q / 2) 1 2 1 0 0 (1/10) 3).2.2.2.2.1
      (fun z e => pureEv_no_exn (fun q => q / 2) z e)⟩
